import Mathlib

/-!
Verification of the static-analysis core of the `impactsdk-production`
repository: the stylesheet structural analyzer (`CSSAnalyzer.analyze`), the
markup structural analyzer (`HTMLAnalyzer.analyze`), the script analyzer
(`JavaScriptAnalyzer.analyze`), the cross-file validator
(`HTMLCSSCrossValidator.validate`) and the orchestrator
(`InMemoryAnalyzer.analyze`).

External collaborators (the `htmlparser2` streaming tag parser and the `acorn`
script parser) are modelled as abstract parameters: an HTML parse model maps a
document to the list of callback events it delivers plus an optional thrown
parse-error message, and an acorn model maps source text to the outcome of
`acorn.parse`.  Everything else is translated directly from the TypeScript
source.
-/

/-- Severity vocabulary of `CodeIssue.severity` (the TS union
`'error' | 'warning' | 'info'`). -/
inductive LintSeverity
  | error
  | warning
  | info
deriving DecidableEq

/-- The shared issue shape (`CodeIssue` in `types.ts`): message, file path,
1-based line, 0-based column, severity, stable rule id and producing source. -/
structure CodeIssue where
  message : String
  filePath : String
  line : Nat
  column : Nat
  severity : LintSeverity
  ruleId : String
  src : String
deriving DecidableEq

/-- `FileInput` from `types.ts`: an immutable path/content pair. -/
structure FileInput where
  path : String
  content : String
deriving DecidableEq

/-- Per-severity tallies of the response envelope. -/
structure LintSummary where
  errorCount : Nat
  warningCount : Nat
  infoCount : Nat
deriving DecidableEq

/-- One block (`lint` or `typecheck`) of `StaticAnalysisResponse`. -/
structure AnalysisBlock where
  issues : List CodeIssue
  summary : LintSummary
deriving DecidableEq

/-- The response envelope returned by `InMemoryAnalyzer.analyze`. -/
structure StaticAnalysisResponse where
  success : Bool
  lint : AnalysisBlock
  typecheck : AnalysisBlock
deriving DecidableEq

/-! ## Stylesheet structural analyzer (`CSSAnalyzer.ts`)

The TS code splits the content on `'\n'` and runs one character loop per line
with state `braceCount` / `inString` / `stringChar` / `inComment` carried
across lines; `nextChar` is `line[i + 1]` (undefined at end of line) and the
escape lookbehind is `line[i - 1]` (undefined at start of line).

We model this as a single pass over the whole character sequence in which a
`'\n'` advances the line counter, resets the column to 0 and clears the
look-behind character (`line[-1]` is undefined).  The one-character lookahead
of the TS loop never crosses a line boundary in this model either, because the
character after the last character of a line is `'\n'`, which is neither `'*'`
nor `'/'`, so the two-character comment rules fail exactly as they do on an
undefined `nextChar`.  The final `lines.length` of the TS code equals the
final value of the line counter (`split('\n')` yields one more line than there
are newline characters). -/

/-- Scanner state of `CSSAnalyzer.analyze`: the four TS state variables plus
line/column tracking, the look-behind character and the accumulated issues.
`stringChar` is only ever read while `inString` is set (the TS initial value
is the empty string, which no character equals). -/
structure CssSt where
  braceCount : Int
  inString : Bool
  stringChar : Char
  inComment : Bool
  lineNum : Nat
  col : Nat
  prevC : Option Char
  issues : List CodeIssue
deriving DecidableEq

/-- Initial scanner state (`braceCount = 0`, flags clear, line 1, column 0). -/
def cssInit : CssSt :=
  ⟨0, false, ' ', false, 1, 0, none, []⟩

/-- The `'Unexpected closing brace'` error (ruleId `CSS_UNEXPECTED_BRACE`). -/
def cssUnexpectedBrace (path : String) (ln col : Nat) : CodeIssue :=
  ⟨"Unexpected closing brace", path, ln, col, .error, "CSS_UNEXPECTED_BRACE", "css-analyzer"⟩

/-- The `'Unclosed brace: N opening brace(s) without matching close'` error. -/
def cssUnclosedBrace (path : String) (n : Int) (ln : Nat) : CodeIssue :=
  ⟨"Unclosed brace: " ++ toString n ++ " opening brace(s) without matching close",
    path, ln, 0, .error, "CSS_UNCLOSED_BRACE", "css-analyzer"⟩

/-- The `'Unclosed comment'` error (ruleId `CSS_UNCLOSED_COMMENT`). -/
def cssUnclosedComment (path : String) (ln : Nat) : CodeIssue :=
  ⟨"Unclosed comment", path, ln, 0, .error, "CSS_UNCLOSED_COMMENT", "css-analyzer"⟩

/-- The `'Unclosed string'` error (ruleId `CSS_UNCLOSED_STRING`). -/
def cssUnclosedString (path : String) (ln : Nat) : CodeIssue :=
  ⟨"Unclosed string", path, ln, 0, .error, "CSS_UNCLOSED_STRING", "css-analyzer"⟩

/-- One iteration of the per-character loop body of `CSSAnalyzer.analyze` for
the cases that consume a single character (the two-character comment
open/close rules live in `cssScan`).  Mirrors, in order: the `inComment`
skip, string open, string close (with the `line[i - 1] !== '\\'` lookbehind),
the `inString` skip, and the brace counting with the
`braceCount < 0` → report-and-reset rule. -/
def cssProcOne (path : String) (st : CssSt) (c : Char) : CssSt :=
  if st.inComment then
    { st with col := st.col + 1, prevC := some c }
  else if st.inString = false ∧ (c = '"' ∨ c = '\'') then
    { st with inString := true, stringChar := c, col := st.col + 1, prevC := some c }
  else if st.inString ∧ c = st.stringChar ∧ st.prevC ≠ some '\\' then
    { st with inString := false, col := st.col + 1, prevC := some c }
  else if st.inString then
    { st with col := st.col + 1, prevC := some c }
  else
    let bc : Int := if c = '{' then st.braceCount + 1
      else if c = '}' then st.braceCount - 1 else st.braceCount
    if bc < 0 then
      { st with braceCount := 0,
                issues := st.issues ++ [cssUnexpectedBrace path st.lineNum st.col],
                col := st.col + 1, prevC := some c }
    else
      { st with braceCount := bc, col := st.col + 1, prevC := some c }

/-- Line advance: next line, column 0, no look-behind (`line[-1]` is
undefined at the start of a line). -/
def cssNl (st : CssSt) : CssSt :=
  { st with lineNum := st.lineNum + 1, col := 0, prevC := none }

/-- The character scan of `CSSAnalyzer.analyze`: a newline moves to the next
line, the two-character rules `/*` (comment open, outside string and comment)
and `*/` (comment close, inside comment) consume two characters as the TS
`i++; continue` does, and every other character is handled by `cssProcOne`. -/
def cssScan (path : String) : CssSt → List Char → CssSt
  | st, [] => st
  | st, [c] => if c = '\n' then cssNl st else cssProcOne path st c
  | st, c :: c2 :: cs2 =>
    if c = '\n' then cssScan path (cssNl st) (c2 :: cs2)
    else if st.inString = false ∧ st.inComment = false ∧ c = '/' ∧ c2 = '*' then
      cssScan path { st with inComment := true, col := st.col + 2, prevC := some c2 } cs2
    else if st.inComment = true ∧ c = '*' ∧ c2 = '/' then
      cssScan path { st with inComment := false, col := st.col + 2, prevC := some c2 } cs2
    else cssScan path (cssProcOne path st c) (c2 :: cs2)

/-- `CSSAnalyzer.analyze`: run the scan, then the three end-of-file checks
(unclosed brace with the remaining count, unclosed comment, unclosed string),
each positioned at the last line. -/
def cssAnalyze (file : FileInput) : List CodeIssue :=
  let st := cssScan file.path cssInit file.content.data
  st.issues
    ++ (if st.braceCount > 0 then [cssUnclosedBrace file.path st.braceCount st.lineNum] else [])
    ++ (if st.inComment then [cssUnclosedComment file.path st.lineNum] else [])
    ++ (if st.inString then [cssUnclosedString file.path st.lineNum] else [])

example : cssAnalyze ⟨"a.css", "a \x7b color: red \x7d"⟩ = [] := by decide

example : cssAnalyze ⟨"a.css", "\x7d"⟩ = [cssUnexpectedBrace "a.css" 1 0] := by decide

example : cssAnalyze ⟨"a.css", "a \x7b color: red"⟩ =
    [cssUnclosedBrace "a.css" 1 1] := by decide

example : cssAnalyze ⟨"a.css", "/* '"⟩ = [cssUnclosedComment "a.css" 1] := by decide

example : cssAnalyze ⟨"a.css", "a \x7b content: \"\x7d\" \x7d"⟩ = [] := by decide

/-! ## Markup structural analyzer (`HTMLAnalyzer.ts`)

The low-level lexer (`htmlparser2.Parser`) is an external collaborator.  We
model it abstractly: a parse model maps the document text to the list of
callback events it delivers (in order) together with an optional parse-error
message thrown by `write`/`end` after those events.  The analyzer's own state
machine — the open-tag stack, line counting over text events, the void-element
set, and the issue emission — is translated directly. -/

/-- One callback event of the streaming tag parser: `onopentag` (with the
attribute map as an association list), `onclosetag`, or `ontext`. -/
inductive HtmlEvent
  | openTag (name : String) (attribs : List (String × String))
  | closeTag (name : String)
  | text (t : String)
deriving DecidableEq

/-- Abstract model of an `htmlparser2.Parser` run: events delivered, then an
optional thrown parse error (carrying `error.message`). -/
def HtmlModel : Type := String → List HtmlEvent × Option String

/-- Number of `'\n'` characters in a string:
`(text.match(/\n/g) || []).length`. -/
def countNl (s : String) : Nat :=
  (s.data.filter (fun c => c = '\n')).length

/-- Lowercasing (`String.prototype.toLowerCase`), written over the character
list so that it evaluates inside the kernel. -/
def strToLower (s : String) : String :=
  String.mk (s.data.map Char.toLower)

/-- Pattern-is-a-leading-part test over character lists (the first argument
is the pattern). -/
def chLeads : List Char → List Char → Bool
  | [], _ => true
  | _ :: _, [] => false
  | p :: ps, c :: cs => p = c && chLeads ps cs

/-- `String.prototype.startsWith`, over character lists so that it evaluates
inside the kernel. -/
def strStartsWith (s pat : String) : Bool :=
  chLeads pat.data s.data

/-- `String.prototype.endsWith`, over character lists so that it evaluates
inside the kernel. -/
def strEndsWith (s pat : String) : Bool :=
  chLeads pat.data.reverse s.data.reverse

/-- The `selfClosingTags` set of `HTMLAnalyzer.analyze` (void elements). -/
def selfClosingTags : List String :=
  ["area", "base", "br", "col", "embed", "hr", "img", "input",
   "link", "meta", "param", "source", "track", "wbr"]

/-- A frame of the open-element stack: lowercased tag name and the line of the
open tag. -/
structure TagFrame where
  name : String
  line : Nat
deriving DecidableEq

/-- State threaded through the callbacks of `HTMLAnalyzer.analyze`.  The TS
array `tagStack` pushes/pops at its end; we represent it head-first (the head
of `stack` is the top frame `tagStack[tagStack.length - 1]`). -/
structure HtmlSt where
  stack : List TagFrame
  line : Nat
  issues : List CodeIssue
deriving DecidableEq

/-- Initial analyzer state: empty stack, `currentLine = 1`, no issues. -/
def htmlInit : HtmlSt := ⟨[], 1, []⟩

/-- The `'Unexpected closing tag </name>'` error. -/
def htmlUnexpectedClose (path name : String) (ln : Nat) : CodeIssue :=
  ⟨"Unexpected closing tag </" ++ name ++ ">", path, ln, 0, .error,
    "HTML_UNEXPECTED_CLOSE", "htmlparser2"⟩

/-- The `'Mismatched closing tag: expected </a>, found </b>'` error. -/
def htmlMismatch (path expected found : String) (ln : Nat) : CodeIssue :=
  ⟨"Mismatched closing tag: expected </" ++ expected ++ ">, found </" ++ found ++ ">",
    path, ln, 0, .error, "HTML_TAG_MISMATCH", "htmlparser2"⟩

/-- The parse-error issue of the `catch` handler, positioned at line 1. -/
def htmlParseIssue (path msg : String) : CodeIssue :=
  ⟨msg, path, 1, 0, .error, "HTML_PARSE_ERROR", "htmlparser2"⟩

/-- The `'Unclosed tag <name>'` error at the line where the tag was opened. -/
def htmlUnclosed (path : String) (fr : TagFrame) : CodeIssue :=
  ⟨"Unclosed tag <" ++ fr.name ++ ">", path, fr.line, 0, .error,
    "HTML_UNCLOSED_TAG", "htmlparser2"⟩

/-- The three callbacks of `HTMLAnalyzer.analyze` as a step function:
open-tag pushes non-void frames (lowercased, at the current line); close-tag
ignores void names, reports an unexpected close on an empty stack, reports a
mismatch — leaving the stack unchanged — when the top frame differs, and pops
on a match; text advances the line counter by the number of newlines. -/
def htmlStep (path : String) (st : HtmlSt) : HtmlEvent → HtmlSt
  | .openTag name _ =>
    if strToLower name ∈ selfClosingTags then st
    else { st with stack := ⟨strToLower name, st.line⟩ :: st.stack }
  | .closeTag name =>
    if strToLower name ∈ selfClosingTags then st
    else
      match st.stack with
      | [] => { st with issues := st.issues ++ [htmlUnexpectedClose path name st.line] }
      | top :: rest =>
        if top.name ≠ strToLower name then
          { st with issues := st.issues ++ [htmlMismatch path top.name name st.line] }
        else
          { st with stack := rest }
  | .text t => { st with line := st.line + countNl t }

/-- `HTMLAnalyzer.analyze` on an already-produced event stream: process the
events, convert a thrown parse error into exactly one issue at line 1, then
report every frame still on the stack as an unclosed tag (the TS `for … of`
walks the array from bottom to top, i.e. our reversed list). -/
def htmlAnalyzeRun (path : String) (evs : List HtmlEvent) (err : Option String) :
    List CodeIssue :=
  let st := evs.foldl (htmlStep path) htmlInit
  st.issues
    ++ (match err with | some m => [htmlParseIssue path m] | none => [])
    ++ st.stack.reverse.map (htmlUnclosed path)

/-- `HTMLAnalyzer.analyze`: drive the parse model over the file content. -/
def htmlAnalyze (hm : HtmlModel) (file : FileInput) : List CodeIssue :=
  htmlAnalyzeRun file.path (hm file.content).1 (hm file.content).2

/-! ## Script analyzer (`JavaScriptAnalyzer.ts`)

`acorn.parse` is an external collaborator; its outcome is modelled as: success,
a thrown `SyntaxError` (message plus optional `loc`), a thrown non-syntax
`Error` (message), or a thrown non-`Error` value (which the TS code silently
swallows). -/

/-- Outcome of `acorn.parse` on a given source text. -/
inductive AcornOutcome
  | ok
  | syntaxErr (msg : String) (loc : Option (Nat × Nat))
  | otherErr (msg : String)
  | nonErrorThrow
deriving DecidableEq

/-- Abstract model of the acorn parser. -/
def AcornModel : Type := String → AcornOutcome

/-- `JavaScriptAnalyzer.analyze`: reshape a thrown parse error into one issue
(`JS_SYNTAX_ERROR` with `loc` fallback line 1 / column 0, or
`JS_PARSE_ERROR` at line 1). -/
def jsAnalyze (acorn : AcornModel) (file : FileInput) : List CodeIssue :=
  match acorn file.content with
  | .ok => []
  | .nonErrorThrow => []
  | .syntaxErr msg loc =>
    [⟨msg, file.path, (loc.map Prod.fst).getD 1, (loc.map Prod.snd).getD 0,
      .error, "JS_SYNTAX_ERROR", "acorn"⟩]
  | .otherErr msg => [⟨msg, file.path, 1, 0, .error, "JS_PARSE_ERROR", "acorn"⟩]

/-! ## Cross-file validator (`HTMLCSSCrossValidator.ts`)

Definition collection is pure text processing (JS regexes over the stylesheet
text); we implement each regex operation directly.  Scanning functions that
can skip a variable number of characters after a successful match carry an
explicit step budget (`fuel`) so that they are structurally recursive and
evaluate inside the kernel; every step consumes at least one character, so a
budget equal to the input length never runs out. -/

/-- A selector usage (`CSSUsage` in the TS source): bare name, kind
(`"class"` or `"id"`), file path and line. -/
structure CSSUsage where
  name : String
  type : String
  filePath : String
  line : Nat
deriving DecidableEq

/-- `Set.add`: insertion-ordered set of names (JS `Set<string>`). -/
def addToSet (s : List String) (x : String) : List String :=
  if x ∈ s then s else s ++ [x]

/-- Strip `/\/\*[\s\S]*?\*\//g`: remove each leftmost `/*` through the first
following `*/`; a `/*` with no later `*/` does not match and stays verbatim
(when the search for `*/` exhausts the input, the saved suffix contains no
`*/` at all, hence no further match can start inside it).  The first argument
is `none` outside a comment and `some saved` while looking for the close of a
comment opened just before `saved`. -/
def stripCommentsGo : Option (List Char) → List Char → List Char
  | none, [] => []
  | none, '/' :: '*' :: rest => stripCommentsGo (some rest) rest
  | none, c :: rest => c :: stripCommentsGo none rest
  | some _, '*' :: '/' :: rest => stripCommentsGo none rest
  | some saved, _ :: rest => stripCommentsGo (some saved) rest
  | some saved, [] => '/' :: '*' :: saved

/-- Comment stripping (`content.replace(/\/\*[\s\S]*?\*\//g, '')`). -/
def stripComments (cs : List Char) : List Char :=
  stripCommentsGo none cs

/-- JavaScript `\\s`: the whitespace and line-terminator characters
(space, tab, LF, VT, FF, CR, NBSP, Ogham space mark, the U+2000-U+200A
spaces, LS, PS, narrow NBSP, medium mathematical space, ideographic space,
BOM). -/
def isJsWs (c : Char) : Bool :=
  c = ' ' ∨ c = '\t' ∨ c = '\n' ∨ c = '\x0b' ∨ c = '\x0c' ∨ c = '\r' ∨
  c.val = 0xa0 ∨ c.val = 0x1680 ∨ (0x2000 ≤ c.val ∧ c.val ≤ 0x200a) ∨
  c.val = 0x2028 ∨ c.val = 0x2029 ∨ c.val = 0x202f ∨ c.val = 0x205f ∨
  c.val = 0x3000 ∨ c.val = 0xfeff

/-- After a case-insensitive `url`: match `\s*\([^)]*\)` and return the rest
of the input, or `none` if the regex cannot match here. -/
def urlTail (cs : List Char) : Option (List Char) :=
  match cs.dropWhile isJsWs with
  | '(' :: r => dropThroughParen r
  | _ => none
where
  /-- Consume `[^)]*\)`: everything up to and including the first `)`. -/
  dropThroughParen : List Char → Option (List Char)
    | ')' :: r => some r
    | _ :: r => dropThroughParen r
    | [] => none

/-- Scan for `/url\s*\([^)]*\)/gi` matches, removing each and resuming after
it; a failed match attempt emits one character and resumes at the next
position, exactly like the regex engine. -/
def stripUrlsGo : Nat → List Char → List Char
  | 0, l => l
  | _ + 1, [] => []
  | fuel + 1, c1 :: rest1 =>
    match rest1 with
    | c2 :: c3 :: rest =>
      if c1.toLower = 'u' ∧ c2.toLower = 'r' ∧ c3.toLower = 'l' then
        match urlTail rest with
        | some rest2 => stripUrlsGo fuel rest2
        | none => c1 :: stripUrlsGo fuel rest1
      else c1 :: stripUrlsGo fuel rest1
    | _ => c1 :: stripUrlsGo fuel rest1

/-- `cleaned.replace(/url\s*\([^)]*\)/gi, '')`. -/
def stripUrls (cs : List Char) : List Char :=
  stripUrlsGo cs.length cs

/-- The selector-segment loop of `extractCSSDefinitions`: text before each `{`
at depth 0 is a selector block; nested braces adjust the depth only; text at
nonzero depth is dropped; a trailing segment with no following `{` is never
pushed. -/
def selectorSegsGo : List Char → Int → List Char → List (List Char) → List (List Char)
  | [], _, _, blocks => blocks
  | '{' :: rest, depth, cur, blocks =>
    if depth = 0 then selectorSegsGo rest (depth + 1) [] (blocks ++ [cur])
    else selectorSegsGo rest (depth + 1) cur blocks
  | '}' :: rest, depth, cur, blocks => selectorSegsGo rest (depth - 1) cur blocks
  | c :: rest, depth, cur, blocks =>
    selectorSegsGo rest depth (if depth = 0 then cur ++ [c] else cur) blocks

/-- `selectorBlocks.join(' ')` over the extracted segments. -/
def selectorText (cs : List Char) : List Char :=
  List.intercalate [' '] (selectorSegsGo cs 0 [] [])

/-- First character of a selector name: `[a-zA-Z_]`. -/
def isNameStart (c : Char) : Bool :=
  c.isAlpha ∨ c = '_'

/-- Subsequent characters of a selector name: `[a-zA-Z0-9_-]`. -/
def isNameChar (c : Char) : Bool :=
  c.isAlphanum ∨ c = '_' ∨ c = '-'

/-- All matches of `/<mark>([a-zA-Z_][a-zA-Z0-9_-]*)/g` for a marker character
(`.` for classes, `#` for ids): at a marker followed by a name-start
character, capture the greedy name run and resume after it; otherwise resume
one character further on. -/
def markedNamesGo (mark : Char) : Nat → List Char → List String
  | 0, _ => []
  | _ + 1, [] => []
  | fuel + 1, c :: rest =>
    if c = mark then
      match rest with
      | d :: rest2 =>
        if isNameStart d then
          String.mk (d :: rest2.takeWhile isNameChar)
            :: markedNamesGo mark fuel (rest2.dropWhile isNameChar)
        else markedNamesGo mark fuel rest
      | [] => []
    else markedNamesGo mark fuel rest

/-- The class names matched in the selector text of a stylesheet source
(comments stripped, `url(...)` stripped, selector segments joined). -/
def cssClassNames (content : String) : List String :=
  let sel := selectorText (stripUrls (stripComments content.data))
  markedNamesGo '.' sel.length sel

/-- The id names matched in the selector text of a stylesheet source. -/
def cssIdNames (content : String) : List String :=
  let sel := selectorText (stripUrls (stripComments content.data))
  markedNamesGo '#' sel.length sel

/-- `extractCSSDefinitions(content, classes, ids)`: add every matched class
and id name to the respective definition set. -/
def extractCSSDefinitions (content : String) (acc : List String × List String) :
    List String × List String :=
  ((cssClassNames content).foldl addToSet acc.1,
   (cssIdNames content).foldl addToSet acc.2)

/-- Case-insensitive literal match: if the input starts with the pattern
(compared via `Char.toLower`; the pattern is given lowercased), return the
rest of the input. -/
def matchCI : List Char → List Char → Option (List Char)
  | [], cs => some cs
  | _ :: _, [] => none
  | p :: ps, c :: cs => if c.toLower = p then matchCI ps cs else none

/-- Match `<style[^>]*>` case-insensitively at the current position and
return the input just after the `>`. -/
def matchStyleOpen (cs : List Char) : Option (List Char) :=
  match matchCI ['<', 's', 't', 'y', 'l', 'e'] cs with
  | some r =>
    match r.dropWhile (fun c => c ≠ '>') with
    | '>' :: r2 => some r2
    | _ => none
  | none => none

/-- Lazily capture `([\s\S]*?)` up to the first case-insensitive `</style>`,
returning the captured content and the input after the close tag. -/
def styleCloseSplit : List Char → Option (List Char × List Char)
  | [] => none
  | c :: rest =>
    match matchCI ['<', '/', 's', 't', 'y', 'l', 'e', '>'] (c :: rest) with
    | some r => some ([], r)
    | none =>
      match styleCloseSplit rest with
      | some (content, after) => some (c :: content, after)
      | none => none

/-- All captures of `/<style[^>]*>([\s\S]*?)<\/style>/gi` in order: a full
match is consumed whole, a failed attempt advances one character. -/
def styleBlocksGo : Nat → List Char → List (List Char)
  | 0, _ => []
  | _ + 1, [] => []
  | fuel + 1, c :: rest =>
    match matchStyleOpen (c :: rest) with
    | some afterOpen =>
      match styleCloseSplit afterOpen with
      | some (content, afterClose) => content :: styleBlocksGo fuel afterClose
      | none => styleBlocksGo fuel rest
    | none => styleBlocksGo fuel rest

/-- The contents of the inline `<style>` blocks of a markup document. -/
def styleBlocks (html : String) : List String :=
  (styleBlocksGo html.data.length html.data).map String.mk

/-- `extractInlineStyles`: run `extractCSSDefinitions` on the content of each
`<style>` block. -/
def extractInlineStyles (html : String) (acc : List String × List String) :
    List String × List String :=
  (styleBlocks html).foldl (fun a b => extractCSSDefinitions b a) acc

/-- The body of the definition-collection loop of `validate` for one file:
files whose path ends in `.css` feed `extractCSSDefinitions`; files whose
path ends in `.html` or `.htm` additionally feed `extractInlineStyles` (both
suffix checks are case-sensitive, as in the TS `String.endsWith`). -/
def collectFileDefs (f : FileInput) (acc : List String × List String) :
    List String × List String :=
  let acc1 := if strEndsWith f.path ".css" then extractCSSDefinitions f.content acc else acc
  if strEndsWith f.path ".html" || strEndsWith f.path ".htm" then
    extractInlineStyles f.content acc1
  else acc1

/-! ### Heuristic suppression patterns

Each JS regex of `DYNAMIC_CLASS_PATTERNS` / `UTILITY_FRAMEWORK_PATTERNS` is
implemented as a Boolean test.  An unflagged `.` in those regexes matches any
character except a line terminator, and `$` matches only at the very end of
the string. -/

/-- No line terminator (`\n`, `\r`, LS, PS) among the given characters: the
condition for `.*` to span them. -/
def noLineTerm (cs : List Char) : Bool :=
  cs.all fun c => ¬(c = '\n' ∨ c = '\r' ∨ c.val = 0x2028 ∨ c.val = 0x2029)

/-- A delimited template shape `^L.*R$` (e.g. `/^{{.*}}$/`): the string starts
with `L`, ends with `R`, is long enough for disjoint ends, and the middle has
no line terminator. -/
def delimShape (lft rgt : String) (n : String) : Bool :=
  strStartsWith n lft ∧ strEndsWith n rgt ∧ lft.length + rgt.length ≤ n.length ∧
  noLineTerm ((n.data.drop lft.length).take (n.length - lft.length - rgt.length))

/-- The pattern `^-?[mpwh][trblxy]?-` (spacing/sizing utility
shorthands): an optional leading hyphen, one of `m p w h`, optionally one of
`t r b l x y`, then a hyphen. -/
def spacingShape (n : String) : Bool :=
  match (match n.data with | '-' :: r => r | r => r) with
  | a :: b :: rest =>
    (a = 'm' ∨ a = 'p' ∨ a = 'w' ∨ a = 'h') ∧
    ((b = 't' ∨ b = 'r' ∨ b = 'b' ∨ b = 'l' ∨ b = 'x' ∨ b = 'y') ∧ rest.head? = some '-'
      ∨ b = '-')
  | _ => false

/-- `^(alt1|alt2|...)sfx` for a list of alternatives followed by a literal
suffix (empty suffix for the bare-keyword pattern). -/
def startsAnyThen (alts : List String) (sfx : String) (n : String) : Bool :=
  alts.any fun a => strStartsWith n (a ++ sfx)

/-- `isLikelyDynamicOrFrameworkClass`: the ordered dynamic-shape patterns,
then the utility-framework patterns, first match wins. -/
def isLikelyDynamicOrFrameworkClass (n : String) : Bool :=
  delimShape "\x7b\x7b" "\x7d\x7d" n ∨
  delimShape "<%" "%>" n ∨
  delimShape "$\x7b" "\x7d" n ∨
  delimShape "[" "]" n ∨
  (strStartsWith n ":" ∧ noLineTerm (n.data.drop 1)) ∨
  strStartsWith n "v-" ∨
  strStartsWith n "ng-" ∨
  strStartsWith n "x-" ∨
  spacingShape n ∨
  startsAnyThen ["flex", "grid", "block", "inline", "hidden", "visible",
    "absolute", "relative", "fixed", "sticky"] "" n ∨
  startsAnyThen ["text", "bg", "border", "rounded", "shadow", "opacity", "z"] "-" n ∨
  startsAnyThen ["sm", "md", "lg", "xl", "2xl"] ":" n ∨
  startsAnyThen ["hover", "focus", "active", "disabled", "dark"] ":" n ∨
  startsAnyThen ["justify", "items", "content", "self"] "-" n ∨
  startsAnyThen ["gap", "space"] "-" n ∨
  startsAnyThen ["font", "leading", "tracking"] "-" n ∨
  startsAnyThen ["overflow", "cursor", "pointer", "transition", "duration", "ease"] "-" n

/-! ### Usage collection and reporting -/

/-- First value bound to an attribute name in the callback's attribute map. -/
def lookupAttr (attribs : List (String × String)) (key : String) : Option String :=
  (attribs.find? (fun kv => kv.1 = key)).map Prod.snd

/-- `value.split(/\s+/).filter(Boolean)`: the maximal runs of
non-whitespace characters (splitting on single whitespace characters and
dropping empty pieces yields exactly these runs). -/
def wsTokensGo : Nat → List Char → List String
  | 0, _ => []
  | _ + 1, [] => []
  | fuel + 1, c :: rest =>
    if isJsWs c then wsTokensGo fuel rest
    else
      String.mk (c :: rest.takeWhile (fun d => ¬isJsWs d))
        :: wsTokensGo fuel (rest.dropWhile (fun d => ¬isJsWs d))

/-- Token list of a `class` attribute value. -/
def wsTokens (s : String) : List String :=
  wsTokensGo s.data.length s.data

/-- Class usages of one `class` attribute value: nothing for an absent or
empty (falsy) attribute, else one usage per non-empty whitespace-separated
token. -/
def classAttrUsages (path : String) (line : Nat) : Option String → List CSSUsage
  | some v => if v = "" then [] else (wsTokens v).map fun nm => ⟨nm, "class", path, line⟩
  | none => []

/-- Id usage of one `id` attribute value: nothing for an absent or empty
(falsy) attribute, else exactly one usage carrying the whole value. -/
def idAttrUsages (path : String) (line : Nat) : Option String → List CSSUsage
  | some v => if v = "" then [] else [⟨v, "id", path, line⟩]
  | none => []

/-- The `onopentag` callback body of `extractHTMLUsage`: one class usage per
non-empty whitespace-separated token of a truthy `class` attribute, and at
most one id usage for a truthy `id` attribute (the empty string is falsy). -/
def openTagUsages (path : String) (line : Nat) (attribs : List (String × String)) :
    List CSSUsage :=
  classAttrUsages path line (lookupAttr attribs "class")
    ++ idAttrUsages path line (lookupAttr attribs "id")

/-- The callback set of `extractHTMLUsage` as a fold: open tags contribute
usages at the current line, text advances the line counter, close tags do
nothing. -/
def usageStep (path : String) (acc : List CSSUsage × Nat) (ev : HtmlEvent) :
    List CSSUsage × Nat :=
  match ev with
  | .openTag _ attribs => (acc.1 ++ openTagUsages path acc.2 attribs, acc.2)
  | .closeTag _ => acc
  | .text t => (acc.1, acc.2 + countNl t)

/-- `extractHTMLUsage`: run the parse model and fold the events; a parse
error is silently ignored (the structural analyzer reports it). -/
def extractHTMLUsage (hm : HtmlModel) (file : FileInput) : List CSSUsage :=
  (((hm file.content).1).foldl (usageStep file.path) ([], 1)).1

/-- The `'CSS class "c" is used but not defined in any CSS file'` message. -/
def classUndefinedMessage (name : String) : String :=
  "CSS class \"" ++ name ++ "\" is used but not defined in any CSS file"

/-- The `'CSS ID "i" is used but not defined in any CSS file'` message. -/
def idUndefinedMessage (name : String) : String :=
  "CSS ID \"" ++ name ++ "\" is used but not defined in any CSS file"

/-- The class-undefined warning (ruleId `CSS_CLASS_UNDEFINED`) at the usage
site. -/
def classUndefinedIssue (u : CSSUsage) : CodeIssue :=
  ⟨classUndefinedMessage u.name, u.filePath, u.line, 0, .warning,
    "CSS_CLASS_UNDEFINED", "html-css-validator"⟩

/-- The id-undefined warning (ruleId `CSS_ID_UNDEFINED`) at the usage site. -/
def idUndefinedIssue (u : CSSUsage) : CodeIssue :=
  ⟨idUndefinedMessage u.name, u.filePath, u.line, 0, .warning,
    "CSS_ID_UNDEFINED", "html-css-validator"⟩

/-- The reporting loop body of `validate` for one usage: an undefined class
name is suppressed when it matches the dynamic/utility heuristics, otherwise
warned about; an undefined id is always warned about. -/
def reportStep (definedClasses definedIds : List String)
    (acc : List CodeIssue) (u : CSSUsage) : List CodeIssue :=
  let acc1 :=
    if u.type = "class" ∧ u.name ∉ definedClasses then
      if isLikelyDynamicOrFrameworkClass u.name then acc
      else acc ++ [classUndefinedIssue u]
    else acc
  if u.type = "id" ∧ u.name ∉ definedIds then acc1 ++ [idUndefinedIssue u]
  else acc1

/-- `HTMLCSSCrossValidator.validate`: collect every definition across the
whole batch, then every usage, then report usages with no matching
definition. -/
def validate (hm : HtmlModel) (files : List FileInput) : List CodeIssue :=
  let defs := files.foldl (fun acc f => collectFileDefs f acc) ([], [])
  let usages := files.foldl
    (fun acc f =>
      if strEndsWith f.path ".html" || strEndsWith f.path ".htm" then
        acc ++ extractHTMLUsage hm f
      else acc) []
  usages.foldl (reportStep defs.1 defs.2) []

/-! ## Orchestrator (`InMemoryAnalyzer.ts`) -/

/-- The three single-file analyzers, in the order of the `analyzers` array. -/
inductive AnalyzerKind
  | js
  | html
  | css
deriving DecidableEq

/-- `supportedExtensions` of each analyzer. -/
def supportedExtensions : AnalyzerKind → List String
  | .js => [".js", ".mjs"]
  | .html => [".html", ".htm"]
  | .css => [".css"]

/-- `getExtension`: the substring from the last `.` (inclusive), lowercased;
the empty string when there is no dot. -/
def getExtension (path : String) : String :=
  let cs := path.data
  match cs.reverse.findIdx? (fun c => c = '.') with
  | none => ""
  | some k => String.mk ((cs.drop (cs.length - 1 - k)).map Char.toLower)

/-- `getAnalyzerForFile`: the first analyzer whose extension list contains
the file's extension. -/
def getAnalyzerForFile (path : String) : Option AnalyzerKind :=
  [AnalyzerKind.js, AnalyzerKind.html, AnalyzerKind.css].find?
    (fun k => (supportedExtensions k).contains (getExtension path))

/-- `buildResponse`: `success: true`, the merged issues with per-severity
tallies, and the always-empty typecheck block. -/
def buildResponse (issues : List CodeIssue) : StaticAnalysisResponse :=
  { success := true
    lint :=
      { issues := issues
        summary :=
          { errorCount := (issues.filter (fun i => i.severity = .error)).length
            warningCount := (issues.filter (fun i => i.severity = .warning)).length
            infoCount := (issues.filter (fun i => i.severity = .info)).length } }
    typecheck := { issues := [], summary := ⟨0, 0, 0⟩ } }

/-- `InMemoryAnalyzer.analyze`: dispatch each file by extension to its
analyzer (files with no matching analyzer are skipped), run the cross-file
validator over the whole batch, and build the response envelope.  The two
`HtmlModel` parameters are the two independent `htmlparser2.Parser`
instantiations (structural analysis and usage extraction use different
parser options). -/
def inMemoryAnalyze (acorn : AcornModel) (hmStruct hmUsage : HtmlModel)
    (files : List FileInput) : StaticAnalysisResponse :=
  let fileIssues := files.foldl
    (fun acc f =>
      acc ++ (match getAnalyzerForFile f.path with
              | some .js => jsAnalyze acorn f
              | some .html => htmlAnalyze hmStruct f
              | some .css => cssAnalyze f
              | none => [])) []
  buildResponse (fileIssues ++ validate hmUsage files)

example : getExtension "theme.CSS" = ".css" := by decide

example : styleBlocks "<style>.a \x7b color: red \x7d</style>" =
    [".a \x7b color: red \x7d"] := by decide

example : cssClassNames ".foo \x7b color: red \x7d .bar:hover \x7b\x7d" =
    ["foo", "bar"] := by decide

example : cssClassNames ".-foo \x7b color: red \x7d" = [] := by decide

example : cssClassNames "/* .gone */ .kept \x7b background: url(a.png#x.y) \x7d" =
    ["kept"] := by decide

example : cssIdNames "#main \x7b\x7d .cls \x7b\x7d" = ["main"] := by decide

example : wsTokens "  a  b " = ["a", "b"] := by decide

example : isLikelyDynamicOrFrameworkClass "flex" = true := by decide

example : isLikelyDynamicOrFrameworkClass "primary-button" = false := by decide

example : isLikelyDynamicOrFrameworkClass "-foo" = false := by decide

example : isLikelyDynamicOrFrameworkClass "mt-4" = true := by decide

example : isLikelyDynamicOrFrameworkClass "hover:underline" = true := by decide

example :
    validate
      (fun s => if s = "<div class=\"a b\">" then ([.openTag "div" [("class", "a b")]], none) else ([], none))
      [⟨"a.css", ".a\x7bcolor:red"⟩, ⟨"b.html", "<div class=\"a b\">"⟩] =
    [classUndefinedIssue ⟨"b", "class", "b.html", 1⟩] := by decide

/-! ## Lemmas about the stylesheet scanner -/

/-- `cssProcOne` never changes the line counter. -/
theorem cssProcOne_lineNum (path : String) (st : CssSt) (c : Char) :
    (cssProcOne path st c).lineNum = st.lineNum := by
  simp only [cssProcOne]
  split_ifs <;> rfl

/-- `cssProcOne` either keeps the issue list or appends the unexpected-brace
error of the current position. -/
theorem cssProcOne_issues (path : String) (st : CssSt) (c : Char) :
    (cssProcOne path st c).issues = st.issues ∨
    (cssProcOne path st c).issues =
      st.issues ++ [cssUnexpectedBrace path st.lineNum st.col] := by
  simp only [cssProcOne]
  split_ifs <;> simp

/-- The scan advances the line counter by the number of newline characters. -/
theorem cssScan_lineNum (path : String) (st : CssSt) (l : List Char) :
    (cssScan path st l).lineNum = st.lineNum + (l.filter (fun c => c = '\n')).length := by
  induction st, l using cssScan.induct path with
  | case1 st => simp [cssScan]
  | case2 st => simp [cssScan, cssNl]
  | case3 st c hnl => simp [cssScan, hnl, cssProcOne_lineNum]
  | case4 st c2 cs2 ih => simp_all [cssScan, cssNl]; omega
  | case5 st c c2 cs2 hnl hcond ih =>
    obtain ⟨hstr, hcom, hc, hc2⟩ := hcond
    subst hc; subst hc2
    simp_all [cssScan]
  | case6 st c c2 cs2 hnl hcond1 hcond2 ih =>
    obtain ⟨hcom, hc, hc2⟩ := hcond2
    subst hc; subst hc2
    simp_all [cssScan]
  | case7 st c c2 cs2 hnl hcond1 hcond2 ih =>
    simp only [cssScan]
    rw [if_neg hnl, if_neg hcond1, if_neg hcond2, ih, cssProcOne_lineNum]
    simp [hnl]

/-- Scanning only ever appends to the issue list. -/
theorem cssScan_issues_ext (path : String) (st : CssSt) (l : List Char) :
    ∃ t, (cssScan path st l).issues = st.issues ++ t := by
  induction st, l using cssScan.induct path with
  | case1 st => exact ⟨[], by simp [cssScan]⟩
  | case2 st => exact ⟨[], by simp [cssScan, cssNl]⟩
  | case3 st c hnl =>
    rcases cssProcOne_issues path st c with h | h
    · exact ⟨[], by simp [cssScan, hnl, h]⟩
    · exact ⟨[cssUnexpectedBrace path st.lineNum st.col], by simp [cssScan, hnl, h]⟩
  | case4 st c2 cs2 ih =>
    obtain ⟨t, ht⟩ := ih
    refine ⟨t, ?_⟩
    simp only [cssScan, if_pos rfl]
    simpa [cssNl] using ht
  | case5 st c c2 cs2 hnl hcond ih =>
    obtain ⟨t, ht⟩ := ih
    refine ⟨t, ?_⟩
    simp only [cssScan]
    rw [if_neg hnl, if_pos hcond]
    obtain ⟨hstr, hcom, hc, hc2⟩ := hcond
    subst hc; subst hc2
    rw [hstr] at ht ⊢
    exact ht
  | case6 st c c2 cs2 hnl hcond1 hcond2 ih =>
    obtain ⟨t, ht⟩ := ih
    refine ⟨t, ?_⟩
    simp only [cssScan]
    rw [if_neg hnl, if_neg hcond1, if_pos hcond2]
    obtain ⟨hcom, hc, hc2⟩ := hcond2
    subst hc; subst hc2
    exact ht
  | case7 st c c2 cs2 hnl hcond1 hcond2 ih =>
    obtain ⟨t, ht⟩ := ih
    simp only [cssScan]
    rw [if_neg hnl, if_neg hcond1, if_neg hcond2]
    rcases cssProcOne_issues path st c with h | h
    · exact ⟨t, by rw [ht, h]⟩
    · exact ⟨cssUnexpectedBrace path st.lineNum st.col :: t, by rw [ht, h]; simp⟩

/-- Every issue emitted during the scan itself (as opposed to the end-of-file
checks) is an unexpected-closing-brace error. -/
theorem cssScan_rules (path : String) (st : CssSt) (l : List Char) :
    ∀ i ∈ (cssScan path st l).issues,
      i ∈ st.issues ∨ i.ruleId = "CSS_UNEXPECTED_BRACE" := by
  induction st, l using cssScan.induct path with
  | case1 st => intro i hi; exact Or.inl (by simpa [cssScan] using hi)
  | case2 st => intro i hi; exact Or.inl (by simpa [cssScan, cssNl] using hi)
  | case3 st c hnl =>
    intro i hi
    simp only [cssScan, if_neg hnl] at hi
    rcases cssProcOne_issues path st c with h | h
    · exact Or.inl (h ▸ hi)
    · rw [h] at hi
      rcases List.mem_append.mp hi with h1 | h1
      · exact Or.inl h1
      · right
        simp only [List.mem_singleton] at h1
        rw [h1]; rfl
  | case4 st c2 cs2 ih =>
    intro i hi
    simp only [cssScan, if_pos rfl] at hi
    rcases ih i hi with h | h
    · exact Or.inl (by simpa [cssNl] using h)
    · exact Or.inr h
  | case5 st c c2 cs2 hnl hcond ih =>
    intro i hi
    simp only [cssScan] at hi
    rw [if_neg hnl, if_pos hcond] at hi
    obtain ⟨hstr, hcom, hc, hc2⟩ := hcond
    subst hc; subst hc2
    exact ih i hi
  | case6 st c c2 cs2 hnl hcond1 hcond2 ih =>
    intro i hi
    simp only [cssScan] at hi
    rw [if_neg hnl, if_neg hcond1, if_pos hcond2] at hi
    obtain ⟨hcom, hc, hc2⟩ := hcond2
    subst hc; subst hc2
    exact ih i hi
  | case7 st c c2 cs2 hnl hcond1 hcond2 ih =>
    intro i hi
    simp only [cssScan] at hi
    rw [if_neg hnl, if_neg hcond1, if_neg hcond2] at hi
    rcases ih i hi with h | h
    · rcases cssProcOne_issues path st c with h2 | h2
      · exact Or.inl (h2 ▸ h)
      · rw [h2] at h
        rcases List.mem_append.mp h with h1 | h1
        · exact Or.inl h1
        · right
          simp only [List.mem_singleton] at h1
          rw [h1]; rfl
    · exact Or.inr h

/-- String mode and comment mode are mutually exclusive: a comment can only
open outside a string, a string can only open outside a comment, so at most
one of the two flags is ever set. -/
theorem cssProcOne_excl (path : String) (st : CssSt) (c : Char)
    (h : st.inString = false ∨ st.inComment = false) :
    (cssProcOne path st c).inString = false ∨ (cssProcOne path st c).inComment = false := by
  simp only [cssProcOne]
  split_ifs with h1 h2 h3 h4 h5 <;> simp_all

/-- The scan preserves mutual exclusion of string mode and comment mode. -/
theorem cssScan_excl (path : String) (st : CssSt) (l : List Char)
    (h : st.inString = false ∨ st.inComment = false) :
    (cssScan path st l).inString = false ∨ (cssScan path st l).inComment = false := by
  induction st, l using cssScan.induct path with
  | case1 st => simpa [cssScan] using h
  | case2 st => simpa [cssScan, cssNl] using h
  | case3 st c hnl =>
    simp only [cssScan, if_neg hnl]
    exact cssProcOne_excl path st c h
  | case4 st c2 cs2 ih =>
    simp only [cssScan, if_pos rfl]
    exact ih (by simpa [cssNl] using h)
  | case5 st c c2 cs2 hnl hcond ih =>
    simp only [cssScan]
    rw [if_neg hnl, if_pos hcond]
    obtain ⟨hstr, hcom, hc, hc2⟩ := hcond
    subst hc; subst hc2
    exact ih (Or.inl hstr)
  | case6 st c c2 cs2 hnl hcond1 hcond2 ih =>
    simp only [cssScan]
    rw [if_neg hnl, if_neg hcond1, if_pos hcond2]
    obtain ⟨hcom, hc, hc2⟩ := hcond2
    subst hc; subst hc2
    exact ih (Or.inr rfl)
  | case7 st c c2 cs2 hnl hcond1 hcond2 ih =>
    simp only [cssScan]
    rw [if_neg hnl, if_neg hcond1, if_neg hcond2]
    exact ih (cssProcOne_excl path st c h)

/-- Two scanner states that agree on the control data (`braceCount`,
`inString`, `inComment`, and — while inside a string — `stringChar` and the
look-behind) but may differ in position and accumulated issues. -/
def cssCtrlRel (a b : CssSt) : Prop :=
  a.braceCount = b.braceCount ∧ a.inString = b.inString ∧ a.inComment = b.inComment ∧
  (a.inString = true → a.stringChar = b.stringChar ∧ a.prevC = b.prevC)

/-- `cssProcOne` preserves the control relation and emits the same number of
issues from related states. -/
theorem cssProcOne_ctrlRel (path : String) (a b : CssSt) (c : Char)
    (h : cssCtrlRel a b) :
    cssCtrlRel (cssProcOne path a c) (cssProcOne path b c) ∧
    (cssProcOne path a c).issues.length + b.issues.length =
      (cssProcOne path b c).issues.length + a.issues.length := by
  obtain ⟨hbc, hstr, hcom, hsc⟩ := h
  unfold cssProcOne
  by_cases h1 : a.inComment = true
  · have h1b : b.inComment = true := hcom ▸ h1
    rw [if_pos h1, if_pos h1b]
    exact ⟨⟨hbc, hstr, hcom, fun hs => ⟨(hsc hs).1, rfl⟩⟩, by simp; omega⟩
  · have h1b : ¬b.inComment = true := by rw [← hcom]; exact h1
    rw [if_neg h1, if_neg h1b]
    by_cases h2 : a.inString = false ∧ (c = '"' ∨ c = '\'')
    · have h2b : b.inString = false ∧ (c = '"' ∨ c = '\'') := ⟨hstr ▸ h2.1, h2.2⟩
      rw [if_pos h2, if_pos h2b]
      exact ⟨⟨hbc, rfl, hcom, fun _ => ⟨rfl, rfl⟩⟩, by simp; omega⟩
    · have h2b : ¬(b.inString = false ∧ (c = '"' ∨ c = '\'')) := by
        rw [← hstr]; exact h2
      rw [if_neg h2, if_neg h2b]
      by_cases h3 : a.inString = true ∧ c = a.stringChar ∧ a.prevC ≠ some '\\'
      · have h3b : b.inString = true ∧ c = b.stringChar ∧ b.prevC ≠ some '\\' := by
          obtain ⟨ha, hb', hc'⟩ := h3
          obtain ⟨hsc1, hsc2⟩ := hsc ha
          exact ⟨hstr ▸ ha, hsc1 ▸ hb', hsc2 ▸ hc'⟩
        rw [if_pos h3, if_pos h3b]
        refine ⟨⟨hbc, rfl, hcom, ?_⟩, by simp; omega⟩
        intro hfalse
        exact absurd hfalse (by simp)
      · have h3b : ¬(b.inString = true ∧ c = b.stringChar ∧ b.prevC ≠ some '\\') := by
          intro ⟨hb1, hb2, hb3⟩
          have ha1 : a.inString = true := hstr ▸ hb1
          obtain ⟨hsc1, hsc2⟩ := hsc ha1
          exact h3 ⟨ha1, hsc1 ▸ hb2, hsc2 ▸ hb3⟩
        rw [if_neg h3, if_neg h3b]
        by_cases h4 : a.inString = true
        · have h4b : b.inString = true := hstr ▸ h4
          rw [if_pos h4, if_pos h4b]
          exact ⟨⟨hbc, hstr, hcom, fun hs => ⟨(hsc h4).1, rfl⟩⟩, by simp; omega⟩
        · have h4b : ¬b.inString = true := by rw [← hstr]; exact h4
          rw [if_neg h4, if_neg h4b]
          simp only [← hbc]
          by_cases h5 :
              (if c = '{' then a.braceCount + 1
               else if c = '}' then a.braceCount - 1 else a.braceCount) < 0
          · rw [if_pos h5, if_pos h5]
            exact ⟨⟨rfl, hstr, hcom, fun hs => ⟨(hsc hs).1, rfl⟩⟩, by simp; omega⟩
          · rw [if_neg h5, if_neg h5]
            exact ⟨⟨rfl, hstr, hcom, fun hs => ⟨(hsc hs).1, rfl⟩⟩, by simp; omega⟩

/-- Master lemma: from control-related states the scan of the same text keeps
the states control-related and emits the same number of issues.  In
particular the unbalanced-brace behavior of a suffix does not depend on the
position counters, the look-behind outside a string, or the previously
accumulated issues. -/
theorem cssScan_ctrlRel (path : String) (a : CssSt) (l : List Char) :
    ∀ b, cssCtrlRel a b →
      cssCtrlRel (cssScan path a l) (cssScan path b l) ∧
      (cssScan path a l).issues.length + b.issues.length =
        (cssScan path b l).issues.length + a.issues.length := by
  induction a, l using cssScan.induct path with
  | case1 a =>
    intro b hr
    simpa [cssScan] using ⟨hr, by omega⟩
  | case2 a =>
    intro b hr
    obtain ⟨hbc, hstr, hcom, hsc⟩ := hr
    simp only [cssScan]
    exact ⟨⟨hbc, hstr, hcom, fun hs => ⟨(hsc hs).1, rfl⟩⟩, by simp [cssNl]; omega⟩
  | case3 a c hnl =>
    intro b hr
    simp only [cssScan, if_neg hnl]
    exact cssProcOne_ctrlRel path a b c hr
  | case4 a c2 cs2 ih =>
    intro b hr
    obtain ⟨hbc, hstr, hcom, hsc⟩ := hr
    simp only [cssScan, if_pos rfl]
    have hr2 : cssCtrlRel (cssNl a) (cssNl b) :=
      ⟨hbc, hstr, hcom, fun hs => ⟨(hsc hs).1, rfl⟩⟩
    have := ih (cssNl b) hr2
    exact ⟨this.1, by simpa [cssNl] using this.2⟩
  | case5 a c c2 cs2 hnl hcond ih =>
    intro b hr
    obtain ⟨hbc, hstr, hcom, hsc⟩ := hr
    have hcondb : b.inString = false ∧ b.inComment = false ∧ c = '/' ∧ c2 = '*' :=
      ⟨hstr ▸ hcond.1, hcom ▸ hcond.2.1, hcond.2.2.1, hcond.2.2.2⟩
    simp only [cssScan]
    rw [if_neg hnl, if_pos hcond, if_neg hnl, if_pos hcondb]
    have hr2 : cssCtrlRel { a with inComment := true, col := a.col + 2, prevC := some c2 }
        { b with inComment := true, col := b.col + 2, prevC := some c2 } := by
      refine ⟨hbc, hstr, rfl, fun hs => ?_⟩
      exact ⟨(hsc hs).1, rfl⟩
    have := ih _ hr2
    exact ⟨this.1, by simpa using this.2⟩
  | case6 a c c2 cs2 hnl hcond1 hcond2 ih =>
    intro b hr
    obtain ⟨hbc, hstr, hcom, hsc⟩ := hr
    have hcond1b : ¬(b.inString = false ∧ b.inComment = false ∧ c = '/' ∧ c2 = '*') := by
      rw [← hstr, ← hcom]; exact hcond1
    have hcond2b : b.inComment = true ∧ c = '*' ∧ c2 = '/' :=
      ⟨hcom ▸ hcond2.1, hcond2.2.1, hcond2.2.2⟩
    simp only [cssScan]
    rw [if_neg hnl, if_neg hcond1, if_pos hcond2, if_neg hnl, if_neg hcond1b,
      if_pos hcond2b]
    have hr2 : cssCtrlRel { a with inComment := false, col := a.col + 2, prevC := some c2 }
        { b with inComment := false, col := b.col + 2, prevC := some c2 } := by
      refine ⟨hbc, hstr, rfl, fun hs => ?_⟩
      exact ⟨(hsc hs).1, rfl⟩
    have := ih _ hr2
    exact ⟨this.1, by simpa using this.2⟩
  | case7 a c c2 cs2 hnl hcond1 hcond2 ih =>
    intro b hr
    obtain ⟨hbc, hstr, hcom, hsc⟩ := hr
    have hcond1b : ¬(b.inString = false ∧ b.inComment = false ∧ c = '/' ∧ c2 = '*') := by
      rw [← hstr, ← hcom]; exact hcond1
    have hcond2b : ¬(b.inComment = true ∧ c = '*' ∧ c2 = '/') := by
      rw [← hcom]; exact hcond2
    simp only [cssScan]
    rw [if_neg hnl, if_neg hcond1, if_neg hcond2, if_neg hnl, if_neg hcond1b,
      if_neg hcond2b]
    have hstep := cssProcOne_ctrlRel path a b c ⟨hbc, hstr, hcom, hsc⟩
    have := ih (cssProcOne path b c) hstep.1
    refine ⟨this.1, ?_⟩
    have h1 := this.2
    have h2 := hstep.2
    omega

/-- Dropping a head before a nonempty tail keeps the last element. -/
theorem getLast?_cons_ne_nil {α : Type} (a : α) (l : List α) (h : l ≠ []) :
    (a :: l).getLast? = l.getLast? := by
  cases l with
  | nil => exact absurd rfl h
  | cons b t => exact List.getLast?_cons_cons

/-- Splitting the scan at a point where no two-character token spans the
boundary: if the first part does not end in `/` with the second part starting
in `*` (comment open), nor end in `*` with the second part starting in `/`
(comment close), the scan of the concatenation is the composition of the
scans. -/
theorem cssScan_append (path : String) (st : CssSt) (p : List Char) :
    ∀ s : List Char,
      (p.getLast? = some '/' → s.head? ≠ some '*') →
      (p.getLast? = some '*' → s.head? ≠ some '/') →
      cssScan path st (p ++ s) = cssScan path (cssScan path st p) s := by
  induction st, p using cssScan.induct path with
  | case1 st => intro s h1 h2; simp [cssScan]
  | case2 st =>
    intro s h1 h2
    cases s with
    | nil => simp [cssScan]
    | cons d s' => simp [cssScan]
  | case3 st c hnl =>
    intro s h1 h2
    cases s with
    | nil => simp [cssScan]
    | cons d s' =>
      have hc1 : ¬(st.inString = false ∧ st.inComment = false ∧ c = '/' ∧ d = '*') := by
        rintro ⟨-, -, hc, hd⟩
        exact h1 (by rw [hc]; rfl) (by rw [hd]; rfl)
      have hc2 : ¬(st.inComment = true ∧ c = '*' ∧ d = '/') := by
        rintro ⟨-, hc, hd⟩
        exact h2 (by rw [hc]; rfl) (by rw [hd]; rfl)
      simp only [List.cons_append, List.nil_append, cssScan]
      rw [if_neg hnl, if_neg hc1, if_neg hc2, if_neg hnl]
  | case4 st c2 cs2 ih =>
    intro s h1 h2
    have hlast : ('\n' :: c2 :: cs2).getLast? = (c2 :: cs2).getLast? :=
      List.getLast?_cons_cons
    simp only [List.cons_append, cssScan, if_pos rfl]
    exact ih s (fun h => h1 (hlast ▸ h)) (fun h => h2 (hlast ▸ h))
  | case5 st c c2 cs2 hnl hcond ih =>
    intro s h1 h2
    have hlast : (c :: c2 :: cs2).getLast? = (c2 :: cs2).getLast? :=
      List.getLast?_cons_cons
    have hh1 : cs2.getLast? = some '/' → s.head? ≠ some '*' := by
      intro hgl
      apply h1
      rcases List.eq_nil_or_concat cs2 with hnil | ⟨t, x, rfl⟩
      · rw [hnil] at hgl; simp at hgl
      · rw [hlast, getLast?_cons_ne_nil c2 _ (by simp)]; exact hgl
    have hh2 : cs2.getLast? = some '*' → s.head? ≠ some '/' := by
      intro hgl
      apply h2
      rcases List.eq_nil_or_concat cs2 with hnil | ⟨t, x, rfl⟩
      · rw [hnil] at hgl; simp at hgl
      · rw [hlast, getLast?_cons_ne_nil c2 _ (by simp)]; exact hgl
    simp only [List.cons_append, cssScan]
    rw [if_neg hnl, if_pos hcond, if_neg hnl, if_pos hcond]
    exact ih s hh1 hh2
  | case6 st c c2 cs2 hnl hcond1 hcond2 ih =>
    intro s h1 h2
    have hlast : (c :: c2 :: cs2).getLast? = (c2 :: cs2).getLast? :=
      List.getLast?_cons_cons
    have hh1 : cs2.getLast? = some '/' → s.head? ≠ some '*' := by
      intro hgl
      apply h1
      rcases List.eq_nil_or_concat cs2 with hnil | ⟨t, x, rfl⟩
      · rw [hnil] at hgl; simp at hgl
      · rw [hlast, getLast?_cons_ne_nil c2 _ (by simp)]; exact hgl
    have hh2 : cs2.getLast? = some '*' → s.head? ≠ some '/' := by
      intro hgl
      apply h2
      rcases List.eq_nil_or_concat cs2 with hnil | ⟨t, x, rfl⟩
      · rw [hnil] at hgl; simp at hgl
      · rw [hlast, getLast?_cons_ne_nil c2 _ (by simp)]; exact hgl
    simp only [List.cons_append, cssScan]
    rw [if_neg hnl, if_neg hcond1, if_pos hcond2, if_neg hnl, if_neg hcond1,
      if_pos hcond2]
    exact ih s hh1 hh2
  | case7 st c c2 cs2 hnl hcond1 hcond2 ih =>
    intro s h1 h2
    have hlast : (c :: c2 :: cs2).getLast? = (c2 :: cs2).getLast? :=
      List.getLast?_cons_cons
    simp only [List.cons_append, cssScan]
    rw [if_neg hnl, if_neg hcond1, if_neg hcond2, if_neg hnl, if_neg hcond1,
      if_neg hcond2]
    exact ih s (fun h => h1 (hlast ▸ h)) (fun h => h2 (hlast ▸ h))

/-- A character that is not a newline, slash or star is always handled by
`cssProcOne`, whatever follows it. -/
theorem cssScan_cons_procOne (path : String) (st : CssSt) (c : Char) (l : List Char)
    (hnl : c ≠ '\n') (hsl : c ≠ '/') (hst : c ≠ '*') :
    cssScan path st (c :: l) = cssScan path (cssProcOne path st c) l := by
  cases l with
  | nil => simp [cssScan, hnl]
  | cons d s' =>
    have hc1 : ¬(st.inString = false ∧ st.inComment = false ∧ c = '/' ∧ d = '*') := by
      rintro ⟨-, -, hc, -⟩; exact hsl hc
    have hc2 : ¬(st.inComment = true ∧ c = '*' ∧ d = '/') := by
      rintro ⟨-, hc, -⟩; exact hst hc
    simp only [cssScan]
    rw [if_neg hnl, if_neg hc1, if_neg hc2]

/-- C3 (claim): outside strings and comments at depth 0, a `}` produces
exactly one unexpected-closing-brace error at that character's position and
resets the depth to 0; consequently, for a stylesheet consisting of a prefix
that scans cleanly to depth 0 (in particular one containing no unmatched
brace), one spurious `}`, and a correctly balanced remainder, the analyzer
reports exactly the one unexpected-closing-brace error at the position of
that `}` — the rest of the file yields no brace issue of either kind. -/
theorem c3_unexpected_brace_isolated (path p s : String)
    (hp1 : (cssScan path cssInit p.data).issues = [])
    (hp2 : (cssScan path cssInit p.data).braceCount = 0)
    (hp3 : (cssScan path cssInit p.data).inString = false)
    (hp4 : (cssScan path cssInit p.data).inComment = false)
    (hs1 : (cssScan path cssInit s.data).issues = [])
    (hs2 : (cssScan path cssInit s.data).braceCount = 0)
    (hs3 : (cssScan path cssInit s.data).inString = false)
    (hs4 : (cssScan path cssInit s.data).inComment = false) :
    (∀ st : CssSt, st.braceCount = 0 → st.inString = false → st.inComment = false →
      cssProcOne path st '}' =
        { st with braceCount := 0,
                  issues := st.issues ++ [cssUnexpectedBrace path st.lineNum st.col],
                  col := st.col + 1, prevC := some '}' }) ∧
    cssAnalyze ⟨path, p ++ "\x7d" ++ s⟩ =
      [cssUnexpectedBrace path (cssScan path cssInit p.data).lineNum
        (cssScan path cssInit p.data).col] ∧
    (cssScan path cssInit p.data).lineNum =
      1 + (p.data.filter (fun c => c = '\n')).length := by
  have hstep : ∀ st : CssSt, st.braceCount = 0 → st.inString = false →
      st.inComment = false →
      cssProcOne path st '}' =
        { st with braceCount := 0,
                  issues := st.issues ++ [cssUnexpectedBrace path st.lineNum st.col],
                  col := st.col + 1, prevC := some '}' } := by
    intro st h0 hsf hcf
    unfold cssProcOne
    rw [if_neg (by simp [hcf]), if_neg (by simp [hsf]), if_neg (by simp [hsf]),
      if_neg (by simp [hsf])]
    simp only [reduceIte, if_neg (by decide : ¬('}' : Char) = '{')]
    rw [if_pos (by rw [h0]; decide)]
  refine ⟨hstep, ?_, ?_⟩
  · set stP := cssScan path cssInit p.data with hstP
    have hdata : ((p ++ "\x7d" ++ s) : String).data = p.data ++ '}' :: s.data := by
      simp [String.data_append]
    have happ : cssScan path cssInit (p.data ++ '}' :: s.data) =
        cssScan path stP ('}' :: s.data) := by
      rw [cssScan_append path cssInit p.data ('}' :: s.data)
        (fun _ => by simp) (fun _ => by simp)]
    have hone : cssScan path stP ('}' :: s.data) =
        cssScan path (cssProcOne path stP '}') s.data :=
      cssScan_cons_procOne path stP '}' s.data (by decide) (by decide) (by decide)
    set st1 := cssProcOne path stP '}' with hst1
    have hst1eq : st1 =
        { stP with braceCount := 0,
                   issues := stP.issues ++ [cssUnexpectedBrace path stP.lineNum stP.col],
                   col := stP.col + 1, prevC := some '}' } :=
      hstep stP hp2 hp3 hp4
    have hrel : cssCtrlRel st1 cssInit := by
      rw [hst1eq]
      exact ⟨rfl, by simpa [cssInit] using hp3, by simpa [cssInit] using hp4,
        fun hs => absurd hs (by simp [hp3])⟩
    have hmaster := cssScan_ctrlRel path st1 s.data cssInit hrel
    have hfinal_len : (cssScan path st1 s.data).issues.length = 1 := by
      have h2 := hmaster.2
      rw [hs1] at h2
      have : st1.issues.length = 1 := by rw [hst1eq]; simp [hp1]
      simp [cssInit] at h2
      omega
    obtain ⟨t, ht⟩ := cssScan_issues_ext path st1 s.data
    have hissues : (cssScan path st1 s.data).issues =
        [cssUnexpectedBrace path stP.lineNum stP.col] := by
      rw [ht] at hfinal_len ⊢
      rw [hst1eq] at hfinal_len ⊢
      simp [hp1] at hfinal_len ⊢
      exact hfinal_len
    have hbc : (cssScan path st1 s.data).braceCount = 0 := by
      have h1 := hmaster.1.1
      rw [h1]
      have := (cssScan_ctrlRel path cssInit s.data cssInit
        ⟨rfl, rfl, rfl, fun _ => ⟨rfl, rfl⟩⟩).1
      exact hs2
    have hstr : (cssScan path st1 s.data).inString = false := by
      have h1 := hmaster.1.2.1
      rw [h1]; exact hs3
    have hcom : (cssScan path st1 s.data).inComment = false := by
      have h1 := hmaster.1.2.2.1
      rw [h1]; exact hs4
    show cssAnalyze ⟨path, p ++ "\x7d" ++ s⟩ = _
    unfold cssAnalyze
    simp only [hdata, happ, hone]
    rw [hissues]
    rw [if_neg (by rw [hbc]; decide), if_neg (by rw [hcom]; simp),
      if_neg (by rw [hstr]; simp)]
    simp
  · rw [cssScan_lineNum]
    simp [cssInit]

/-- Issues accumulated by a full scan from the initial state are all
unexpected-closing-brace errors. -/
theorem cssScanInit_rules (path content : String) :
    ∀ i ∈ (cssScan path cssInit content.data).issues,
      i.ruleId = "CSS_UNEXPECTED_BRACE" := by
  intro i hi
  rcases cssScan_rules path cssInit content.data i hi with h | h
  · simp [cssInit] at h
  · exact h

/-- The unclosed-comment error appears in the analyzer output exactly when
the scan ends in comment mode. -/
theorem cssAnalyze_comment_mem (path content : String) :
    "CSS_UNCLOSED_COMMENT" ∈ (cssAnalyze ⟨path, content⟩).map (fun i => i.ruleId) ↔
    (cssScan path cssInit content.data).inComment = true := by
  unfold cssAnalyze
  simp only [List.map_append, List.mem_append, List.mem_map]
  constructor
  · rintro (((⟨i, hi, hr⟩ | h) | h) | h)
    · have := cssScanInit_rules path content i hi
      rw [this] at hr; exact absurd hr (by decide)
    · obtain ⟨i, hi, hr⟩ := h
      split_ifs at hi with hbc
      · simp at hi
        rw [hi] at hr
        exact absurd hr (by simp [cssUnclosedBrace])
      · simp at hi
    · obtain ⟨i, hi, hr⟩ := h
      split_ifs at hi with hcom
      · exact hcom
      · simp at hi
    · obtain ⟨i, hi, hr⟩ := h
      split_ifs at hi with hstr
      · simp at hi
        rw [hi] at hr
        exact absurd hr (by simp [cssUnclosedString])
      · simp at hi
  · intro hcom
    refine Or.inl (Or.inr ?_)
    refine ⟨cssUnclosedComment path (cssScan path cssInit content.data).lineNum, ?_, rfl⟩
    rw [if_pos hcom]
    simp
  
/-- The unclosed-string error appears in the analyzer output exactly when the
scan ends in string mode. -/
theorem cssAnalyze_string_mem (path content : String) :
    "CSS_UNCLOSED_STRING" ∈ (cssAnalyze ⟨path, content⟩).map (fun i => i.ruleId) ↔
    (cssScan path cssInit content.data).inString = true := by
  unfold cssAnalyze
  simp only [List.map_append, List.mem_append, List.mem_map]
  constructor
  · rintro (((⟨i, hi, hr⟩ | h) | h) | h)
    · have := cssScanInit_rules path content i hi
      rw [this] at hr; exact absurd hr (by decide)
    · obtain ⟨i, hi, hr⟩ := h
      split_ifs at hi with hbc
      · simp at hi
        rw [hi] at hr
        exact absurd hr (by simp [cssUnclosedBrace])
      · simp at hi
    · obtain ⟨i, hi, hr⟩ := h
      split_ifs at hi with hcom
      · simp at hi
        rw [hi] at hr
        exact absurd hr (by simp [cssUnclosedComment])
      · simp at hi
    · obtain ⟨i, hi, hr⟩ := h
      split_ifs at hi with hstr
      · exact hstr
      · simp at hi
  · intro hstr
    refine Or.inr ?_
    refine ⟨cssUnclosedString path (cssScan path cssInit content.data).lineNum, ?_, rfl⟩
    rw [if_pos hstr]
    simp

/-- When the scan ends at positive depth, the analyzer output contains
exactly one unclosed-brace error: the one built from the remaining count at
the final line. -/
theorem cssAnalyze_unclosed_filter (path content : String)
    (h : 0 < (cssScan path cssInit content.data).braceCount) :
    (cssAnalyze ⟨path, content⟩).filter (fun i => i.ruleId = "CSS_UNCLOSED_BRACE") =
      [cssUnclosedBrace path (cssScan path cssInit content.data).braceCount
        (cssScan path cssInit content.data).lineNum] := by
  unfold cssAnalyze
  rw [List.filter_append, List.filter_append, List.filter_append]
  have hA : (cssScan path cssInit content.data).issues.filter
      (fun i => i.ruleId = "CSS_UNCLOSED_BRACE") = [] := by
    rw [List.filter_eq_nil_iff]
    intro a ha
    have := cssScanInit_rules path content a ha
    simp [this]
  have hB : (if (cssScan path cssInit content.data).braceCount > 0 then
        [cssUnclosedBrace path (cssScan path cssInit content.data).braceCount
          (cssScan path cssInit content.data).lineNum] else []).filter
      (fun i => i.ruleId = "CSS_UNCLOSED_BRACE") =
      [cssUnclosedBrace path (cssScan path cssInit content.data).braceCount
        (cssScan path cssInit content.data).lineNum] := by
    rw [if_pos h]
    simp [cssUnclosedBrace]
  have hC : (if (cssScan path cssInit content.data).inComment then
        [cssUnclosedComment path (cssScan path cssInit content.data).lineNum]
      else []).filter (fun i => i.ruleId = "CSS_UNCLOSED_BRACE") = [] := by
    split_ifs <;> simp [cssUnclosedComment]
  have hD : (if (cssScan path cssInit content.data).inString then
        [cssUnclosedString path (cssScan path cssInit content.data).lineNum]
      else []).filter (fun i => i.ruleId = "CSS_UNCLOSED_BRACE") = [] := by
    split_ifs <;> simp [cssUnclosedString]
  rw [hA, hB, hC, hD]
  simp

/-- C5 (amended): a stylesheet whose scan ends with N more open than close
braces (N > 0) yields exactly one unclosed-brace error, whose message
reports the count N and which is positioned at the last line; the
unclosed-comment and unclosed-string end-of-file checks fire independently,
exactly when their respective modes are still active at end of file. -/
theorem c5_unclosed_brace_eof (path content : String)
    (hN : 0 < (cssScan path cssInit content.data).braceCount) :
    (cssAnalyze ⟨path, content⟩).filter (fun i => i.ruleId = "CSS_UNCLOSED_BRACE") =
      [cssUnclosedBrace path (cssScan path cssInit content.data).braceCount
        (cssScan path cssInit content.data).lineNum] ∧
    (cssScan path cssInit content.data).lineNum =
      1 + (content.data.filter (fun c => c = '\n')).length ∧
    ("CSS_UNCLOSED_COMMENT" ∈ (cssAnalyze ⟨path, content⟩).map (fun i => i.ruleId) ↔
      (cssScan path cssInit content.data).inComment = true) ∧
    ("CSS_UNCLOSED_STRING" ∈ (cssAnalyze ⟨path, content⟩).map (fun i => i.ruleId) ↔
      (cssScan path cssInit content.data).inString = true) :=
  ⟨cssAnalyze_unclosed_filter path content hN,
   by rw [cssScan_lineNum]; simp [cssInit],
   cssAnalyze_comment_mem path content,
   cssAnalyze_string_mem path content⟩

/-- C5 witness: `"{ /*"` ends at depth 1 with an open comment, so the
unclosed-brace error (count 1, line 1) and the unclosed-comment error fire
together. -/
theorem c5_unclosed_brace_eof_witness :
    0 < (cssScan "w.css" cssInit ("\x7b /*" : String).data).braceCount ∧
    ((cssAnalyze ⟨"w.css", "\x7b /*"⟩).filter
        (fun i => i.ruleId = "CSS_UNCLOSED_BRACE") =
      [cssUnclosedBrace "w.css" (cssScan "w.css" cssInit ("\x7b /*" : String).data).braceCount
        (cssScan "w.css" cssInit ("\x7b /*" : String).data).lineNum] ∧
      (cssScan "w.css" cssInit ("\x7b /*" : String).data).lineNum =
        1 + (("\x7b /*" : String).data.filter (fun c => c = '\n')).length ∧
      ("CSS_UNCLOSED_COMMENT" ∈
          (cssAnalyze ⟨"w.css", "\x7b /*"⟩).map (fun i => i.ruleId) ↔
        (cssScan "w.css" cssInit ("\x7b /*" : String).data).inComment = true) ∧
      ("CSS_UNCLOSED_STRING" ∈
          (cssAnalyze ⟨"w.css", "\x7b /*"⟩).map (fun i => i.ruleId) ↔
        (cssScan "w.css" cssInit ("\x7b /*" : String).data).inString = true)) ∧
    "CSS_UNCLOSED_COMMENT" ∈ (cssAnalyze ⟨"w.css", "\x7b /*"⟩).map (fun i => i.ruleId) :=
  ⟨by decide, c5_unclosed_brace_eof "w.css" "\x7b /*" (by decide), by decide⟩

/-- C5 counterexample to "all three may fire for the same file": string mode
and comment mode are mutually exclusive, so no stylesheet ever receives the
unclosed-brace, unclosed-comment and unclosed-string errors together. -/
theorem c5_all_three_never_fire :
    ¬∃ path content : String,
      "CSS_UNCLOSED_BRACE" ∈ (cssAnalyze ⟨path, content⟩).map (fun i => i.ruleId) ∧
      "CSS_UNCLOSED_COMMENT" ∈ (cssAnalyze ⟨path, content⟩).map (fun i => i.ruleId) ∧
      "CSS_UNCLOSED_STRING" ∈ (cssAnalyze ⟨path, content⟩).map (fun i => i.ruleId) := by
  rintro ⟨path, content, -, h2, h3⟩
  have hc := (cssAnalyze_comment_mem path content).mp h2
  have hs := (cssAnalyze_string_mem path content).mp h3
  rcases cssScan_excl path cssInit content.data (Or.inl rfl) with h | h
  · exact absurd (hs.symm.trans h) (by decide)
  · exact absurd (hc.symm.trans h) (by decide)

/-- C3 witness: the prefix `"a \n x "` scans cleanly (line 2, column 3
reached), the remainder `" .q { color: red }\n"` is balanced, and the file
with the spurious `}` in between yields exactly the one error at line 2,
column 3. -/
theorem c3_unexpected_brace_isolated_witness :
    cssAnalyze ⟨"w.css", "a \n x " ++ "\x7d" ++ " .q \x7b color: red \x7d\n"⟩ =
      [cssUnexpectedBrace "w.css" 2 3] :=
  ((c3_unexpected_brace_isolated "w.css" "a \n x " " .q \x7b color: red \x7d\n"
    (by decide) (by decide) (by decide) (by decide)
    (by decide) (by decide) (by decide) (by decide)).2.1).trans (by decide)

/-- C2: for every acorn model, every pair of tag-parser models and every
list of input files, the top-level `analyze` returns (it is total, so it
never raises) a response with `success = true`, an empty all-zero typecheck
block, and lint summary counts that tally the merged issue list by
severity. -/
theorem c2_response_envelope (acorn : AcornModel) (hmS hmU : HtmlModel)
    (files : List FileInput) :
    (inMemoryAnalyze acorn hmS hmU files).success = true ∧
    (inMemoryAnalyze acorn hmS hmU files).typecheck.issues = [] ∧
    (inMemoryAnalyze acorn hmS hmU files).typecheck.summary = ⟨0, 0, 0⟩ ∧
    (inMemoryAnalyze acorn hmS hmU files).lint.summary.errorCount =
      ((inMemoryAnalyze acorn hmS hmU files).lint.issues.filter
        (fun i => i.severity = .error)).length ∧
    (inMemoryAnalyze acorn hmS hmU files).lint.summary.warningCount =
      ((inMemoryAnalyze acorn hmS hmU files).lint.issues.filter
        (fun i => i.severity = .warning)).length ∧
    (inMemoryAnalyze acorn hmS hmU files).lint.summary.infoCount =
      ((inMemoryAnalyze acorn hmS hmU files).lint.issues.filter
        (fun i => i.severity = .info)).length :=
  ⟨rfl, rfl, rfl, rfl, rfl, rfl⟩

/-- C6: a close-tag event for a non-void name that differs from the top
frame of a non-empty stack emits exactly one mismatched-closing-tag error —
naming both the expected and the found tag — and leaves the stack (and the
line counter) entirely unchanged. -/
theorem c6_mismatch_leaves_stack (path : String) (st : HtmlSt) (name : String)
    (hvoid : strToLower name ∉ selfClosingTags)
    (top : TagFrame) (rest : List TagFrame) (hstack : st.stack = top :: rest)
    (hne : top.name ≠ strToLower name) :
    (htmlStep path st (.closeTag name)).stack = st.stack ∧
    (htmlStep path st (.closeTag name)).issues =
      st.issues ++ [htmlMismatch path top.name name st.line] ∧
    (htmlStep path st (.closeTag name)).line = st.line := by
  simp only [htmlStep]
  rw [if_neg hvoid, hstack]
  simp [hne]

/-- C6 witness: closing `</span>` over a stack whose top is `div`. -/
theorem c6_mismatch_leaves_stack_witness :
    (htmlStep "w.html" ⟨[⟨"div", 1⟩], 1, []⟩ (.closeTag "span")).stack = [⟨"div", 1⟩] ∧
    (htmlStep "w.html" ⟨[⟨"div", 1⟩], 1, []⟩ (.closeTag "span")).issues =
      [] ++ [htmlMismatch "w.html" "div" "span" 1] ∧
    (htmlStep "w.html" ⟨[⟨"div", 1⟩], 1, []⟩ (.closeTag "span")).line = 1 :=
  c6_mismatch_leaves_stack "w.html" ⟨[⟨"div", 1⟩], 1, []⟩ "span" (by decide)
    ⟨"div", 1⟩ [] rfl (by decide)

/-- Issues produced by the event callbacks are unexpected-close or
tag-mismatch errors only. -/
theorem htmlFold_rules (path : String) (evs : List HtmlEvent) :
    ∀ st : HtmlSt,
      (∀ i ∈ st.issues,
        i.ruleId = "HTML_UNEXPECTED_CLOSE" ∨ i.ruleId = "HTML_TAG_MISMATCH") →
      ∀ i ∈ (evs.foldl (htmlStep path) st).issues,
        i.ruleId = "HTML_UNEXPECTED_CLOSE" ∨ i.ruleId = "HTML_TAG_MISMATCH" := by
  induction evs with
  | nil => intro st h; exact h
  | cons e rest ih =>
    intro st h
    simp only [List.foldl_cons]
    apply ih
    intro i hi
    cases e with
    | openTag name attribs =>
      simp only [htmlStep] at hi
      split_ifs at hi
      · exact h i hi
      · exact h i hi
    | closeTag name =>
      simp only [htmlStep] at hi
      split_ifs at hi with h1
      · exact h i hi
      · split at hi
        next =>
          simp only [List.mem_append, List.mem_singleton] at hi
          rcases hi with hi | hi
          · exact h i hi
          · left; rw [hi]; rfl
        next top rest2 =>
          split_ifs at hi with h2
          · simp only [List.mem_append, List.mem_singleton] at hi
            rcases hi with hi | hi
            · exact h i hi
            · right; rw [hi]; rfl
          · exact h i hi
    | text t => exact h i hi

/-- C7: when the tag-event source raises a parse error after delivering its
events, the analyzer output contains exactly one parse-error issue — carrying
the underlying message, at line 1 — and every frame still on the stack after
the delivered events is reported as an unclosed-tag error at the line where
it was opened. -/
theorem c7_parse_error_recovery (path : String) (evs : List HtmlEvent) (msg : String) :
    (htmlAnalyzeRun path evs (some msg)).filter
        (fun i => i.ruleId = "HTML_PARSE_ERROR") = [htmlParseIssue path msg] ∧
    ∀ fr ∈ (evs.foldl (htmlStep path) htmlInit).stack,
      htmlUnclosed path fr ∈ htmlAnalyzeRun path evs (some msg) := by
  constructor
  · unfold htmlAnalyzeRun
    rw [List.filter_append, List.filter_append]
    have hA : (evs.foldl (htmlStep path) htmlInit).issues.filter
        (fun i => i.ruleId = "HTML_PARSE_ERROR") = [] := by
      rw [List.filter_eq_nil_iff]
      intro a ha
      rcases htmlFold_rules path evs htmlInit (by simp [htmlInit]) a ha with h | h <;>
        simp [h]
    have hB : ([htmlParseIssue path msg]).filter
        (fun i => i.ruleId = "HTML_PARSE_ERROR") = [htmlParseIssue path msg] := by
      simp [htmlParseIssue]
    have hC : ((evs.foldl (htmlStep path) htmlInit).stack.reverse.map
        (htmlUnclosed path)).filter (fun i => i.ruleId = "HTML_PARSE_ERROR") = [] := by
      rw [List.filter_eq_nil_iff]
      intro a ha
      obtain ⟨fr, -, rfl⟩ := List.mem_map.mp ha
      simp [htmlUnclosed]
    rw [hA, hB, hC]
    simp
  · intro fr hfr
    unfold htmlAnalyzeRun
    simp only [List.mem_append]
    right
    exact List.mem_map_of_mem _ (List.mem_reverse.mpr hfr)

/-- C7 witness: one open `div` before the parser fails with message
`"boom"`. -/
theorem c7_parse_error_recovery_witness :
    (htmlAnalyzeRun "w.html" [.openTag "div" []] (some "boom")).filter
        (fun i => i.ruleId = "HTML_PARSE_ERROR") = [htmlParseIssue "w.html" "boom"] ∧
    htmlUnclosed "w.html" ⟨"div", 1⟩ ∈
      htmlAnalyzeRun "w.html" [.openTag "div" []] (some "boom") :=
  ⟨(c7_parse_error_recovery "w.html" [.openTag "div" []] "boom").1,
   (c7_parse_error_recovery "w.html" [.openTag "div" []] "boom").2 ⟨"div", 1⟩ (by decide)⟩

/-- C9: a path whose extension lowercases to `.css` without being a
lowercase `.css` suffix (e.g. `theme.CSS`) is dispatched to the stylesheet
analyzer by the orchestrator, yet contributes nothing to the cross-file
validator's definition sets, whose suffix checks are case-sensitive. -/
theorem c9_mixed_case_css_split (path content : String)
    (h1 : getExtension path = ".css")
    (h2 : strEndsWith path ".css" = false)
    (h3 : strEndsWith path ".html" = false)
    (h4 : strEndsWith path ".htm" = false) :
    getAnalyzerForFile path = some AnalyzerKind.css ∧
    ∀ acc : List String × List String, collectFileDefs ⟨path, content⟩ acc = acc := by
  constructor
  · simp only [getAnalyzerForFile, h1]
    decide
  · intro acc
    simp only [collectFileDefs, h2, h3, h4]
    simp
    
/-- C9 witness: the file `theme.CSS`. -/
theorem c9_mixed_case_css_split_witness :
    getAnalyzerForFile "theme.CSS" = some AnalyzerKind.css ∧
    collectFileDefs ⟨"theme.CSS", ".x \x7b color: red \x7d"⟩ (["a"], ["b"]) =
      (["a"], ["b"]) :=
  ⟨(c9_mixed_case_css_split "theme.CSS" ".x \x7b color: red \x7d"
      (by decide) (by decide) (by decide) (by decide)).1,
   (c9_mixed_case_css_split "theme.CSS" ".x \x7b color: red \x7d"
      (by decide) (by decide) (by decide) (by decide)).2 (["a"], ["b"])⟩

/-- A value made only of whitespace splits into no tokens at all. -/
theorem wsTokensGo_all_ws (fuel : Nat) (cs : List Char)
    (h : cs.all isJsWs = true) : wsTokensGo fuel cs = [] := by
  induction fuel generalizing cs with
  | zero => rfl
  | succ n ih =>
    cases cs with
    | nil => rfl
    | cons c rest =>
      simp only [List.all_cons, Bool.and_eq_true] at h
      simp only [wsTokensGo, if_pos h.1]
      exact ih rest h.2

/-- C10: an open tag whose `class` attribute is absent, empty, or made only
of whitespace contributes no class usage, and an open tag whose `id`
attribute is absent or empty contributes no id usage — so such attributes
can never give rise to class-undefined or id-undefined warnings. -/
theorem c10_degenerate_attributes_no_usage :
    (∀ (path : String) (line : Nat) (attribs : List (String × String)),
      (∀ v, lookupAttr attribs "class" = some v → v.data.all isJsWs = true) →
      (openTagUsages path line attribs).filter (fun u => u.type = "class") = []) ∧
    (∀ (path : String) (line : Nat) (attribs : List (String × String)),
      (∀ v, lookupAttr attribs "id" = some v → v = "") →
      (openTagUsages path line attribs).filter (fun u => u.type = "id") = []) := by
  constructor
  · intro path line attribs hws
    unfold openTagUsages
    rw [List.filter_append]
    have hcls : (classAttrUsages path line (lookupAttr attribs "class")).filter
        (fun u => u.type = "class") = [] := by
      rcases hlk : lookupAttr attribs "class" with - | v
      · rfl
      · have hv := hws v hlk
        have htok : wsTokens v = [] := wsTokensGo_all_ws v.data.length v.data hv
        simp [classAttrUsages, htok]
    have hid : (idAttrUsages path line (lookupAttr attribs "id")).filter
        (fun u => u.type = "class") = [] := by
      rcases lookupAttr attribs "id" with - | v
      · rfl
      · by_cases hv : v = "" <;> simp [idAttrUsages, hv]
    rw [hcls, hid]
    rfl
  · intro path line attribs hid0
    unfold openTagUsages
    rw [List.filter_append]
    have hcls : (classAttrUsages path line (lookupAttr attribs "class")).filter
        (fun u => u.type = "id") = [] := by
      rcases lookupAttr attribs "class" with - | v
      · rfl
      · by_cases hv : v = ""
        · simp [classAttrUsages, hv]
        · rw [show classAttrUsages path line (some v) =
              (wsTokens v).map (fun nm => (⟨nm, "class", path, line⟩ : CSSUsage)) from by
            simp [classAttrUsages, hv]]
          rw [List.filter_eq_nil_iff]
          intro a ha
          obtain ⟨nm, -, rfl⟩ := List.mem_map.mp ha
          simp
    have hid : (idAttrUsages path line (lookupAttr attribs "id")).filter
        (fun u => u.type = "id") = [] := by
      rcases hlk : lookupAttr attribs "id" with - | v
      · rfl
      · rw [hid0 v hlk]
        rfl
    rw [hcls, hid]
    rfl

/-- C10 witness: a whitespace-only `class` attribute (with an unrelated id)
and an empty `id` attribute (with an unrelated class). -/
theorem c10_degenerate_attributes_no_usage_witness :
    (openTagUsages "w.html" 1 [("class", "  "), ("id", "x")]).filter
        (fun u => u.type = "class") = [] ∧
    (openTagUsages "w.html" 1 [("class", "a"), ("id", "")]).filter
        (fun u => u.type = "id") = [] :=
  ⟨c10_degenerate_attributes_no_usage.1 "w.html" 1 [("class", "  "), ("id", "x")]
      (by decide),
   c10_degenerate_attributes_no_usage.2 "w.html" 1 [("class", "a"), ("id", "")]
      (by decide)⟩

/-- The fixed set of rule-id strings the code actually emits. -/
def codeRuleIds : List String :=
  ["JS_SYNTAX_ERROR", "JS_PARSE_ERROR",
   "HTML_UNEXPECTED_CLOSE", "HTML_TAG_MISMATCH", "HTML_PARSE_ERROR",
   "HTML_UNCLOSED_TAG",
   "CSS_UNEXPECTED_BRACE", "CSS_UNCLOSED_BRACE", "CSS_UNCLOSED_COMMENT",
   "CSS_UNCLOSED_STRING", "CSS_CLASS_UNDEFINED", "CSS_ID_UNDEFINED"]

/-- Modelled from the spec (section 6): the rule-id taxonomy the
specification declares as the stable strings of the implementation.  Kept
for comparison with `codeRuleIds`; it is not what the code emits. -/
def specRuleIdTaxonomy : List String :=
  ["unbalanced-brace-unexpected", "unbalanced-brace-unclosed",
   "comment-unclosed", "string-unclosed", "tag-unexpected-close",
   "tag-mismatch", "tag-unclosed", "markup-parse-error",
   "script-syntax-error", "script-parse-error", "class-undefined",
   "id-undefined"]

/-- Every stylesheet-analyzer issue carries one of the four CSS rule ids. -/
theorem cssAnalyze_rules (f : FileInput) :
    ∀ i ∈ cssAnalyze f,
      i.ruleId = "CSS_UNEXPECTED_BRACE" ∨ i.ruleId = "CSS_UNCLOSED_BRACE" ∨
      i.ruleId = "CSS_UNCLOSED_COMMENT" ∨ i.ruleId = "CSS_UNCLOSED_STRING" := by
  intro i hi
  unfold cssAnalyze at hi
  simp only [List.mem_append] at hi
  rcases hi with ((h | h) | h) | h
  · exact Or.inl (cssScanInit_rules f.path f.content i h)
  · split_ifs at h with hc
    · simp only [List.mem_singleton] at h
      subst h
      exact Or.inr (Or.inl rfl)
    · simp at h
  · split_ifs at h with hc
    · simp only [List.mem_singleton] at h
      subst h
      exact Or.inr (Or.inr (Or.inl rfl))
    · simp at h
  · split_ifs at h with hc
    · simp only [List.mem_singleton] at h
      subst h
      exact Or.inr (Or.inr (Or.inr rfl))
    · simp at h

/-- Every markup-analyzer issue carries one of the four HTML rule ids. -/
theorem htmlAnalyzeRun_rules (path : String) (evs : List HtmlEvent)
    (err : Option String) :
    ∀ i ∈ htmlAnalyzeRun path evs err,
      i.ruleId = "HTML_UNEXPECTED_CLOSE" ∨ i.ruleId = "HTML_TAG_MISMATCH" ∨
      i.ruleId = "HTML_PARSE_ERROR" ∨ i.ruleId = "HTML_UNCLOSED_TAG" := by
  intro i hi
  unfold htmlAnalyzeRun at hi
  simp only [List.mem_append] at hi
  rcases hi with (h | h) | h
  · rcases htmlFold_rules path evs htmlInit (by simp [htmlInit]) i h with h' | h'
    · exact Or.inl h'
    · exact Or.inr (Or.inl h')
  · cases err with
    | none => simp at h
    | some m =>
      simp only [List.mem_singleton] at h
      subst h
      exact Or.inr (Or.inr (Or.inl rfl))
  · obtain ⟨fr, -, rfl⟩ := List.mem_map.mp h
    exact Or.inr (Or.inr (Or.inr rfl))

/-- One step of the reporting loop only adds a class-undefined warning for
an undefined class name or an id-undefined warning for an undefined id
name. -/
theorem reportStep_mem (dc di : List String) (acc : List CodeIssue) (u : CSSUsage)
    (i : CodeIssue) (h : i ∈ reportStep dc di acc u) :
    i ∈ acc ∨ (u.name ∉ dc ∧ i = classUndefinedIssue u) ∨
      (u.name ∉ di ∧ i = idUndefinedIssue u) := by
  simp only [reportStep] at h
  split_ifs at h <;>
    (try simp only [List.mem_append, List.mem_singleton] at h) <;>
    tauto

/-- The reporting loop only adds class-undefined warnings for undefined
class names and id-undefined warnings for undefined id names, each built
from one of the collected usages. -/
theorem reportFold_mem (dc di : List String) (us : List CSSUsage) :
    ∀ (acc : List CodeIssue) (i : CodeIssue), i ∈ us.foldl (reportStep dc di) acc →
      i ∈ acc ∨ ∃ u ∈ us, (u.name ∉ dc ∧ i = classUndefinedIssue u) ∨
        (u.name ∉ di ∧ i = idUndefinedIssue u) := by
  induction us with
  | nil => intro acc i h; exact Or.inl h
  | cons u rest ih =>
    intro acc i h
    simp only [List.foldl_cons] at h
    rcases ih _ i h with h' | ⟨w, hw, hcase⟩
    · rcases reportStep_mem dc di acc u i h' with h'' | h'' | h''
      · exact Or.inl h''
      · exact Or.inr ⟨u, by simp, Or.inl h''⟩
      · exact Or.inr ⟨u, by simp, Or.inr h''⟩
    · exact Or.inr ⟨w, List.mem_cons_of_mem _ hw, hcase⟩

/-- Every cross-file-validator issue is a class-undefined or id-undefined
warning. -/
theorem validate_rules (hm : HtmlModel) (files : List FileInput) :
    ∀ i ∈ validate hm files,
      i.ruleId = "CSS_CLASS_UNDEFINED" ∨ i.ruleId = "CSS_ID_UNDEFINED" := by
  intro i hi
  unfold validate at hi
  rcases reportFold_mem _ _ _ _ i hi with h | ⟨u, -, h | h⟩
  · simp at h
  · rw [h.2]; exact Or.inl rfl
  · rw [h.2]; exact Or.inr rfl

/-- C1 (amended): every issue produced by any analyzer or by the cross-file
validator carries a ruleId drawn from the code's fixed set of constants
(`JS_SYNTAX_ERROR`, …, `CSS_ID_UNDEFINED`) — not from the kebab-case
taxonomy the specification lists. -/
theorem c1_rule_ids_from_code_constants :
    (∀ (acorn : AcornModel) (f : FileInput),
      (jsAnalyze acorn f).all (fun i => decide (i.ruleId ∈ codeRuleIds)) = true) ∧
    (∀ (hm : HtmlModel) (f : FileInput),
      (htmlAnalyze hm f).all (fun i => decide (i.ruleId ∈ codeRuleIds)) = true) ∧
    (∀ f : FileInput,
      (cssAnalyze f).all (fun i => decide (i.ruleId ∈ codeRuleIds)) = true) ∧
    (∀ (hm : HtmlModel) (files : List FileInput),
      (validate hm files).all (fun i => decide (i.ruleId ∈ codeRuleIds)) = true) := by
  refine ⟨?_, ?_, ?_, ?_⟩
  · intro acorn f
    rw [List.all_eq_true]
    intro i hi
    rw [decide_eq_true_eq]
    unfold jsAnalyze at hi
    rcases hout : acorn f.content with - | ⟨msg, loc⟩ | msg | - <;> rw [hout] at hi
    · simp at hi
    · simp only [List.mem_singleton] at hi
      subst hi; simp [codeRuleIds]
    · simp only [List.mem_singleton] at hi
      subst hi; simp [codeRuleIds]
    · simp at hi
  · intro hm f
    rw [List.all_eq_true]
    intro i hi
    rw [decide_eq_true_eq]
    rcases htmlAnalyzeRun_rules f.path (hm f.content).1 (hm f.content).2 i hi
      with h | h | h | h <;> (rw [h]; decide)
  · intro f
    rw [List.all_eq_true]
    intro i hi
    rw [decide_eq_true_eq]
    rcases cssAnalyze_rules f i hi with h | h | h | h <;> (rw [h]; decide)
  · intro hm files
    rw [List.all_eq_true]
    intro i hi
    rw [decide_eq_true_eq]
    rcases validate_rules hm files i hi with h | h <;> (rw [h]; decide)

/-- C1 counterexample: the stylesheet `"}"` yields an issue whose ruleId is
`CSS_UNEXPECTED_BRACE`, which is not one of the twelve strings of the spec's
taxonomy. -/
theorem c1_rule_ids_counterexample :
    ∃ i ∈ cssAnalyze ⟨"a.css", "\x7d"⟩, i.ruleId ∉ specRuleIdTaxonomy := by
  decide

/-- Every name captured by the class/id selector pattern starts with a
name-start character (`[a-zA-Z_]`). -/
theorem markedNamesGo_head (mark : Char) :
    ∀ (fuel : Nat) (cs : List Char), ∀ n ∈ markedNamesGo mark fuel cs,
      ∃ d rest, n = String.mk (d :: rest) ∧ isNameStart d = true := by
  intro fuel
  induction fuel with
  | zero => intro cs n hn; simp [markedNamesGo] at hn
  | succ k ih =>
    intro cs n hn
    cases cs with
    | nil => simp [markedNamesGo] at hn
    | cons c rest =>
      simp only [markedNamesGo] at hn
      split_ifs at hn with h1
      · split at hn
        next d rest2 =>
          split_ifs at hn with h2
          · rcases List.mem_cons.mp hn with h | h
            · exact ⟨d, rest2.takeWhile isNameChar, h, h2⟩
            · exact ih _ n h
          · exact ih _ n hn
        next => simp at hn
      · exact ih _ n hn

/-- C4 (the claim is right, the code is wrong): the source comment above the
class pattern says the name "must start with letter, underscore, or hyphen",
matching the spec, but the regex `\.[a-zA-Z_][a-zA-Z0-9_-]*` rejects a
leading hyphen.  On `.-foo { color: red }` nothing is added to either
definition set, and in general no extracted class name can ever begin with a
hyphen. -/
theorem c4_class_regex_rejects_leading_hyphen :
    extractCSSDefinitions ".-foo \x7b color: red \x7d" ([], []) = ([], []) ∧
    ∀ content : String,
      (cssClassNames content).all (fun n => !strStartsWith n "-") = true := by
  constructor
  · decide
  · intro content
    rw [List.all_eq_true]
    intro n hn
    unfold cssClassNames at hn
    obtain ⟨d, r, rfl, hd⟩ := markedNamesGo_head '.' _ _ n hn
    by_cases hdd : d = '-'
    · subst hdd
      simp [isNameStart] at hd
    · simp [strStartsWith, chLeads, Ne.symm hdd]

/-- Membership in a set after insertion. -/
theorem addToSet_mem (s : List String) (x y : String) :
    y ∈ addToSet s x ↔ y ∈ s ∨ y = x := by
  unfold addToSet
  split_ifs with h
  · constructor
    · exact Or.inl
    · rintro (hy | rfl)
      · exact hy
      · exact h
  · simp

/-- Membership in a set after inserting a list of names. -/
theorem foldl_addToSet_mem (names : List String) :
    ∀ (s : List String) (y : String),
      y ∈ names.foldl addToSet s ↔ y ∈ s ∨ y ∈ names := by
  induction names with
  | nil => intro s y; simp
  | cons n rest ih =>
    intro s y
    simp only [List.foldl_cons]
    rw [ih, addToSet_mem]
    constructor
    · rintro ((hy | rfl) | hy)
      · exact Or.inl hy
      · exact Or.inr (by simp)
      · exact Or.inr (List.mem_cons_of_mem _ hy)
    · rintro (hy | hy)
      · exact Or.inl (Or.inl hy)
      · rcases List.mem_cons.mp hy with rfl | hy
        · exact Or.inl (Or.inr rfl)
        · exact Or.inr hy
 
/-- Membership in the class set after extracting one stylesheet source. -/
theorem extractCSSDefinitions_classes_mem (content : String)
    (acc : List String × List String) (y : String) :
    y ∈ (extractCSSDefinitions content acc).1 ↔
      y ∈ acc.1 ∨ y ∈ cssClassNames content := by
  unfold extractCSSDefinitions
  exact foldl_addToSet_mem _ _ _

/-- Membership in the class set after processing all inline style blocks. -/
theorem extractInlineStyles_classes_mem (html : String) :
    ∀ (acc : List String × List String) (y : String),
      y ∈ (extractInlineStyles html acc).1 ↔
        y ∈ acc.1 ∨ ∃ b ∈ styleBlocks html, y ∈ cssClassNames b := by
  unfold extractInlineStyles
  generalize styleBlocks html = bs
  induction bs with
  | nil => intro acc y; simp
  | cons b rest ih =>
    intro acc y
    simp only [List.foldl_cons]
    rw [ih, extractCSSDefinitions_classes_mem]
    constructor
    · rintro ((hy | hy) | ⟨w, hw, hy⟩)
      · exact Or.inl hy
      · exact Or.inr ⟨b, by simp, hy⟩
      · exact Or.inr ⟨w, List.mem_cons_of_mem _ hw, hy⟩
    · rintro (hy | ⟨w, hw, hy⟩)
      · exact Or.inl (Or.inl hy)
      · rcases List.mem_cons.mp hw with rfl | hw
        · exact Or.inl (Or.inr hy)
        · exact Or.inr ⟨w, hw, hy⟩

/-- Class definitions only accumulate across the per-file collection step. -/
theorem collectFileDefs_classes_mono (f : FileInput)
    (acc : List String × List String) (y : String) (h : y ∈ acc.1) :
    y ∈ (collectFileDefs f acc).1 := by
  unfold collectFileDefs
  split_ifs with h1 h2
  · rw [extractInlineStyles_classes_mem]
    exact Or.inl ((extractCSSDefinitions_classes_mem _ _ _).mpr (Or.inl h))
  · exact (extractCSSDefinitions_classes_mem _ _ _).mpr (Or.inl h)
  · rw [extractInlineStyles_classes_mem]
    exact Or.inl h
  · exact h

/-- A class defined in an inline style block of a markup file enters the
class definition set when that file is collected. -/
theorem collectFileDefs_classes_inline (f : FileInput)
    (acc : List String × List String) (y : String)
    (hhtml : (strEndsWith f.path ".html" || strEndsWith f.path ".htm") = true)
    (h : ∃ b ∈ styleBlocks f.content, y ∈ cssClassNames b) :
    y ∈ (collectFileDefs f acc).1 := by
  unfold collectFileDefs
  rw [if_pos hhtml]
  split_ifs with h1
  · rw [extractInlineStyles_classes_mem]
    exact Or.inr h
  · rw [extractInlineStyles_classes_mem]
    exact Or.inr h

/-- Collecting further files never removes a class definition. -/
theorem foldl_collect_classes_mono (files : List FileInput) :
    ∀ (acc : List String × List String) (y : String), y ∈ acc.1 →
      y ∈ (files.foldl (fun a f => collectFileDefs f a) acc).1 := by
  induction files with
  | nil => intro acc y h; exact h
  | cons f rest ih =>
    intro acc y h
    simp only [List.foldl_cons]
    exact ih _ y (collectFileDefs_classes_mono f acc y h)

/-- The class-undefined warning message determines the class name. -/
theorem classUndefinedMessage_inj (a b : String)
    (h : classUndefinedMessage a = classUndefinedMessage b) : a = b := by
  unfold classUndefinedMessage at h
  have hd := congrArg String.data h
  simp only [String.data_append, List.append_assoc] at hd
  have hd2 := List.append_cancel_left hd
  have hd3 := List.append_cancel_right hd2
  cases a; cases b
  congr 1

/-- C8: in a two-file batch, a class name defined only inside an inline
`<style>` block of the first (markup) file is collected into the class
definition set before any usage of the second file is checked, so the
validator emits no class-undefined warning for that name — whatever the
usage extraction of either file produces. -/
theorem c8_inline_definition_cross_file (hm : HtmlModel) (f1 f2 : FileInput)
    (c : String)
    (hhtml : (strEndsWith f1.path ".html" || strEndsWith f1.path ".htm") = true)
    (hdef : ∃ b ∈ styleBlocks f1.content, c ∈ cssClassNames b) :
    ∀ i ∈ validate hm [f1, f2], i.ruleId = "CSS_CLASS_UNDEFINED" →
      i.message ≠ classUndefinedMessage c := by
  intro i hi hrule
  unfold validate at hi
  have hc : c ∈ ([f1, f2].foldl (fun acc f => collectFileDefs f acc) ([], [])).1 := by
    simp only [List.foldl_cons, List.foldl_nil]
    exact collectFileDefs_classes_mono f2 _ c
      (collectFileDefs_classes_inline f1 ([], []) c hhtml hdef)
  rcases reportFold_mem _ _ _ _ i hi with h | ⟨u, -, ⟨hnotin, rfl⟩ | ⟨-, rfl⟩⟩
  · simp at h
  · intro hmsg
    have heq : u.name = c := classUndefinedMessage_inj u.name c hmsg
    exact hnotin (heq ▸ hc)
  · simp [idUndefinedIssue] at hrule

/-- C8 witness: `.special` is defined only inside the `<style>` block of
`a.html` and used (per the parse model) via a class attribute in `b.html`. -/
theorem c8_inline_definition_cross_file_witness :
    ((strEndsWith "a.html" ".html" || strEndsWith "a.html" ".htm") = true) ∧
    (∃ b ∈ styleBlocks "<style>.special \x7b color: red \x7d</style>",
      "special" ∈ cssClassNames b) ∧
    ∀ i ∈ validate
        (fun s => if s = "<div class=\"special\"></div>"
          then ([.openTag "div" [("class", "special")], .closeTag "div"], none)
          else ([], none))
        [⟨"a.html", "<style>.special \x7b color: red \x7d</style>"⟩,
         ⟨"b.html", "<div class=\"special\"></div>"⟩],
      i.ruleId = "CSS_CLASS_UNDEFINED" →
        i.message ≠ classUndefinedMessage "special" :=
  ⟨by decide, by decide,
   c8_inline_definition_cross_file _
     ⟨"a.html", "<style>.special \x7b color: red \x7d</style>"⟩
     ⟨"b.html", "<div class=\"special\"></div>"⟩ "special"
     (by decide) (by decide)⟩
